import Mathlib

/-!
Verification of the request-dispatch and session-transport layer of the
yandex-delivery-mcp repository.

The development shallowly embeds the three source files:
* `src/server.ts` — the Express HTTP front end (health, manifest, tools,
  and the mounted `/mcp` handler);
* `client.ts` — the `YandexDeliveryClient` upstream adapter;
* `index.ts` — the MCP tool registrations (zod schemas and handlers),
  the startup credential check, and the stdio entry point.

JavaScript runtime values exchanged over the wire are modelled by the
`Json` type below.  JSON numbers are modelled as integers: every numeric
literal appearing in the dispatch layer is integral, and IEEE-754
fractional behaviour is outside the scope of this development.  Strings
are Lean strings (unicode scalar values; JS lone surrogates are not
representable and do not occur in the modelled data).

`JSON.stringify` / `JSON.parse` (built-ins of the platform, exercised by
the code under test) are modelled executably by `stringifyCompact`,
`stringifyIndent2` and `jsonParse`, with `jsonParse` proved to invert
`stringifyIndent2`.
-/

/-!
JSON-compatible JavaScript values.  Arrays and objects are given by
mutually defined list types so that all functions below are
structurally recursive.  An object is a sequence of key/value pairs in
JS insertion order.
-/
mutual
inductive Json where
  | null : Json
  | bool : Bool → Json
  | num : Int → Json
  | str : String → Json
  | arr : JsonList → Json
  | obj : JsonFields → Json
inductive JsonList where
  | nil : JsonList
  | cons : Json → JsonList → JsonList
inductive JsonFields where
  | nil : JsonFields
  | cons : String → Json → JsonFields → JsonFields
end

namespace JsonList

/-- Convert an embedded JSON array to a Lean list. -/
def toList : JsonList → List Json
  | .nil => []
  | .cons x tl => x :: toList tl

/-- Build an embedded JSON array from a Lean list. -/
def ofList : List Json → JsonList
  | [] => .nil
  | x :: tl => .cons x (ofList tl)

end JsonList

namespace JsonFields

/-- Keys of an object, in insertion order. -/
def keys : JsonFields → List String
  | .nil => []
  | .cons k _ tl => k :: keys tl

/-- First field with the given key, mirroring JS property lookup on
objects whose keys are distinct (the only objects produced by the
embedded code). -/
def lookup (k : String) : JsonFields → Option Json
  | .nil => none
  | .cons k' v tl => if k' == k then some v else lookup k tl

/-- Concatenation of two field sequences. -/
def append : JsonFields → JsonFields → JsonFields
  | .nil, gs => gs
  | .cons k v tl, gs => .cons k v (append tl gs)

/-- Drop every field whose key appears in `ks`. -/
def removeKeys (ks : List String) : JsonFields → JsonFields
  | .nil => .nil
  | .cons k v tl => if k ∈ ks then removeKeys ks tl else .cons k v (removeKeys ks tl)

end JsonFields

/-- A key/value pair present only when the value is: models a JS object
literal field whose value may be `undefined`, which `JSON.stringify`
omits from the serialized object. -/
def optField (k : String) (v : Option Json) (tl : JsonFields) : JsonFields :=
  match v with
  | some j => .cons k j tl
  | none => tl

/-- JS truthiness of a JSON-compatible value (`undefined` does not occur
in `Json`; objects and arrays are always truthy). -/
def jsTruthy : Json → Bool
  | .null => false
  | .bool b => b
  | .num n => n != 0
  | .str s => s != ""
  | .arr _ => true
  | .obj _ => true

/-!
`jsize` is the size measure used for parser fuel.
-/
mutual
def jsize : Json → Nat
  | .null => 1
  | .bool _ => 1
  | .num _ => 1
  | .str _ => 1
  | .arr xs => 1 + jsizeL xs
  | .obj kvs => 1 + jsizeF kvs
def jsizeL : JsonList → Nat
  | .nil => 0
  | .cons x tl => 1 + jsize x + jsizeL tl
def jsizeF : JsonFields → Nat
  | .nil => 0
  | .cons _ v tl => 1 + jsize v + jsizeF tl
end

/-! ### Decimal digits -/

/-- The decimal digit character for `n < 10`. -/
def digitChar : Nat → Char
  | 0 => '0' | 1 => '1' | 2 => '2' | 3 => '3' | 4 => '4'
  | 5 => '5' | 6 => '6' | 7 => '7' | 8 => '8' | _ => '9'

/-- Decimal digits of a natural number, most significant first, using
explicit fuel so the definition is structurally recursive. -/
def natCharsAux : Nat → Nat → List Char → List Char
  | 0, _, acc => acc
  | fuel + 1, n, acc =>
    if n < 10 then digitChar n :: acc
    else natCharsAux fuel (n / 10) (digitChar (n % 10) :: acc)

/-- Decimal digits of a natural number, most significant first. -/
def natChars (n : Nat) : List Char := natCharsAux (n + 1) n []

/-- Decimal rendering of an integer, as emitted by `JSON.stringify` for
integral numbers. -/
def intChars (n : Int) : List Char :=
  if n < 0 then '-' :: natChars n.natAbs else natChars n.natAbs

/-! ### String escaping (`JSON.stringify` string serialization) -/

/-- Lowercase hexadecimal digit, as used in `\u00xx` escapes. -/
def hexCharLower : Nat → Char
  | 0 => '0' | 1 => '1' | 2 => '2' | 3 => '3' | 4 => '4'
  | 5 => '5' | 6 => '6' | 7 => '7' | 8 => '8' | 9 => '9'
  | 10 => 'a' | 11 => 'b' | 12 => 'c' | 13 => 'd' | 14 => 'e' | _ => 'f'

/-- `JSON.stringify` escaping of one character: quote and backslash get
two-character escapes, the named control characters get their short
escapes, remaining control characters get `\u00xx`, and anything else is
emitted verbatim. -/
def escapeChar (c : Char) : List Char :=
  if c = '"' then ['\\', '"']
  else if c = '\\' then ['\\', '\\']
  else if c = '\x08' then ['\\', 'b']
  else if c = '\x0c' then ['\\', 'f']
  else if c = '\n' then ['\\', 'n']
  else if c = '\r' then ['\\', 'r']
  else if c = '\t' then ['\\', 't']
  else if c.toNat < 32 then
    ['\\', 'u', '0', '0', hexCharLower (c.toNat / 16), hexCharLower (c.toNat % 16)]
  else [c]

/-- Escaped character sequence of a string body. -/
def escChars : List Char → List Char
  | [] => []
  | c :: cs => escapeChar c ++ escChars cs

/-- A double-quoted, escaped JSON string literal. -/
def quoteChars (s : String) : List Char := '"' :: escChars s.data ++ ['"']

/-! ### `JSON.stringify(v)` — compact form, used by the upstream client
for request bodies -/

mutual
def stringifyCompact : Json → List Char
  | .null => "null".data
  | .bool true => "true".data
  | .bool false => "false".data
  | .num n => intChars n
  | .str s => quoteChars s
  | .arr xs => '[' :: itemsCompact xs ++ [']']
  | .obj kvs => '\x7b' :: fieldsCompact kvs ++ ['\x7d']
def itemsCompact : JsonList → List Char
  | .nil => []
  | .cons x .nil => stringifyCompact x
  | .cons x (.cons y tl) => stringifyCompact x ++ ',' :: itemsCompact (.cons y tl)
def fieldsCompact : JsonFields → List Char
  | .nil => []
  | .cons k v .nil => quoteChars k ++ ':' :: stringifyCompact v
  | .cons k v (.cons k2 v2 tl) =>
    quoteChars k ++ ':' :: stringifyCompact v ++ ',' :: fieldsCompact (.cons k2 v2 tl)
end

/-- `JSON.stringify(v)` as a string. -/
def jsonStringify (v : Json) : String := String.mk (stringifyCompact v)

/-! ### `JSON.stringify(v, null, 2)` — the pretty form used by every
tool handler for its text content -/

/-- Newline followed by the two-space indentation of depth `d`. -/
def sIndent (d : Nat) : List Char := '\n' :: List.replicate (2 * d) ' '

mutual
def stringify2At (d : Nat) : Json → List Char
  | .null => "null".data
  | .bool true => "true".data
  | .bool false => "false".data
  | .num n => intChars n
  | .str s => quoteChars s
  | .arr .nil => ['[', ']']
  | .arr (.cons x tl) => '[' :: items2 (d + 1) (.cons x tl) ++ sIndent d ++ [']']
  | .obj .nil => ['\x7b', '\x7d']
  | .obj (.cons k v tl) => '\x7b' :: fields2 (d + 1) (.cons k v tl) ++ sIndent d ++ ['\x7d']
def items2 (d : Nat) : JsonList → List Char
  | .nil => []
  | .cons x .nil => sIndent d ++ stringify2At d x
  | .cons x (.cons y tl) =>
    sIndent d ++ stringify2At d x ++ ',' :: items2 d (.cons y tl)
def fields2 (d : Nat) : JsonFields → List Char
  | .nil => []
  | .cons k v .nil => sIndent d ++ quoteChars k ++ ':' :: ' ' :: stringify2At d v
  | .cons k v (.cons k2 v2 tl) =>
    sIndent d ++ quoteChars k ++ ':' :: ' ' :: stringify2At d v ++ ',' :: fields2 d (.cons k2 v2 tl)
end

/-- `JSON.stringify(v, null, 2)` as a string. -/
def jsonStringify2 (v : Json) : String := String.mk (stringify2At 0 v)

example : jsonStringify (.arr (.cons (.num 1) (.cons (.str "a") .nil))) = "[1,\"a\"]" := rfl
example : jsonStringify2 (.obj (.cons "a" (.arr (.cons (.num 1) (.cons (.num (-2)) .nil))) .nil))
    = "\x7b\n  \"a\": [\n    1,\n    -2\n  ]\n\x7d" := rfl
example : jsonStringify (.str "x\"y\\z\n\x01") = "\"x\\\"y\\\\z\\n\\u0001\"" := rfl

/-! ### `JSON.parse` — a recursive-descent reader sufficient for the
values emitted by the serializers above (integral numbers) -/

/-- JSON insignificant whitespace. -/
def isWsChar (c : Char) : Bool := c = ' ' || c = '\n' || c = '\r' || c = '\t'

/-- Drop leading whitespace. -/
def skipWs : List Char → List Char
  | [] => []
  | c :: cs => if isWsChar c then skipWs cs else c :: cs

/-- Value of a hexadecimal digit character. -/
def hexVal (c : Char) : Option Nat :=
  if '0' ≤ c ∧ c ≤ '9' then some (c.toNat - 48)
  else if 'a' ≤ c ∧ c ≤ 'f' then some (c.toNat - 87)
  else if 'A' ≤ c ∧ c ≤ 'F' then some (c.toNat - 55)
  else none

/-- Single-character JSON escapes. -/
def unescChar (c : Char) : Option Char :=
  if c = '"' then some '"'
  else if c = '\\' then some '\\'
  else if c = '/' then some '/'
  else if c = 'b' then some '\x08'
  else if c = 'f' then some '\x0c'
  else if c = 'n' then some '\n'
  else if c = 'r' then some '\r'
  else if c = 't' then some '\t'
  else none

/-- Value of a four-hex-digit escape. -/
def hex4 (a b c2 d : Char) : Option Nat :=
  match hexVal a, hexVal b, hexVal c2, hexVal d with
  | some ha, some hb, some hc, some hd => some (((ha * 16 + hb) * 16 + hc) * 16 + hd)
  | _, _, _, _ => none

/-- Read a string body up to and including the closing quote, returning
the unescaped characters and the remaining input. -/
def parseStrBody : List Char → Option (List Char × List Char)
  | [] => none
  | c :: cs =>
    if c = '"' then some ([], cs)
    else if c = '\\' then
      match cs with
      | [] => none
      | e :: cs2 =>
        if e = 'u' then
          match cs2 with
          | a :: b :: c2 :: d :: cs3 =>
            match hex4 a b c2 d with
            | some val => (parseStrBody cs3).map (fun p => (Char.ofNat val :: p.1, p.2))
            | none => none
          | _ => none
        else
          match unescChar e with
          | some u => (parseStrBody cs2).map (fun p => (u :: p.1, p.2))
          | none => none
    else (parseStrBody cs).map (fun p => (c :: p.1, p.2))

/-- Decimal digit test. -/
def isDigitCh (c : Char) : Bool := 48 ≤ c.toNat && c.toNat ≤ 57

/-- Read a maximal run of decimal digits, folding them onto `acc`. -/
def parseDigits (acc : Nat) : List Char → Nat × List Char
  | [] => (acc, [])
  | c :: cs =>
    if isDigitCh c then parseDigits (acc * 10 + (c.toNat - 48)) cs
    else (acc, c :: cs)

/-- Whether the input begins with a decimal digit. -/
def headDigit : List Char → Bool
  | [] => false
  | c :: _ => isDigitCh c

/-- Dispatch on the first significant character of a JSON value.  The
array/object continuations are supplied by `parseValue` with its
remaining fuel. -/
def parseHead (pItems : List Char → Option (JsonList × List Char))
    (pFields : List Char → Option (JsonFields × List Char))
    (c : Char) (cs1 : List Char) : Option (Json × List Char) :=
  if c = 'n' then
    match cs1 with
    | 'u' :: 'l' :: 'l' :: r => some (.null, r)
    | _ => none
  else if c = 't' then
    match cs1 with
    | 'r' :: 'u' :: 'e' :: r => some (.bool true, r)
    | _ => none
  else if c = 'f' then
    match cs1 with
    | 'a' :: 'l' :: 's' :: 'e' :: r => some (.bool false, r)
    | _ => none
  else if c = '"' then (parseStrBody cs1).map (fun p => (.str (String.mk p.1), p.2))
  else if c = '-' then
    match cs1 with
    | d :: cs2 =>
      if isDigitCh d then
        some (.num (-((parseDigits (d.toNat - 48) cs2).1 : Int)),
          (parseDigits (d.toNat - 48) cs2).2)
      else none
    | [] => none
  else if isDigitCh c then
    some (.num ((parseDigits (c.toNat - 48) cs1).1 : Int), (parseDigits (c.toNat - 48) cs1).2)
  else if c = '[' then
    match skipWs cs1 with
    | ']' :: r => some (.arr .nil, r)
    | _ => (pItems cs1).map (fun p => (.arr p.1, p.2))
  else if c = '\x7b' then
    match skipWs cs1 with
    | '\x7d' :: r => some (.obj .nil, r)
    | _ => (pFields cs1).map (fun p => (.obj p.1, p.2))
  else none

/-- After one array item: a comma continues the item list, a closing
bracket ends it. -/
def itemsCont (pItems : List Char → Option (JsonList × List Char))
    (v : Json) (r : List Char) : Option (JsonList × List Char) :=
  match skipWs r with
  | ',' :: r2 => (pItems r2).map (fun p => (.cons v p.1, p.2))
  | ']' :: r2 => some (.cons v .nil, r2)
  | _ => none

/-- After one object member: a comma continues the member list, a closing
brace ends it. -/
def fieldsCont (pFields : List Char → Option (JsonFields × List Char))
    (k : List Char) (v : Json) (r3 : List Char) : Option (JsonFields × List Char) :=
  match skipWs r3 with
  | ',' :: r4 => (pFields r4).map (fun p => (.cons (String.mk k) v p.1, p.2))
  | '\x7d' :: r4 => some (.cons (String.mk k) v .nil, r4)
  | _ => none

mutual
def parseValue : Nat → List Char → Option (Json × List Char)
  | 0, _ => none
  | fuel + 1, cs =>
    match skipWs cs with
    | [] => none
    | c :: cs1 => parseHead (parseItems fuel) (parseFields fuel) c cs1
def parseItems : Nat → List Char → Option (JsonList × List Char)
  | 0, _ => none
  | fuel + 1, cs =>
    match parseValue fuel cs with
    | none => none
    | some (v, r) => itemsCont (parseItems fuel) v r
def parseFields : Nat → List Char → Option (JsonFields × List Char)
  | 0, _ => none
  | fuel + 1, cs =>
    match skipWs cs with
    | '"' :: cs1 =>
      (match parseStrBody cs1 with
       | none => none
       | some (k, r) =>
         match skipWs r with
         | ':' :: r2 =>
           (match parseValue fuel r2 with
            | none => none
            | some (v, r3) => fieldsCont (parseFields fuel) k v r3)
         | _ => none)
    | _ => none
end

/-- `JSON.parse`: read one value and require only whitespace after it. -/
def jsonParse (s : String) : Option Json :=
  match parseValue (s.data.length + 1) s.data with
  | some (v, rest) => if skipWs rest = [] then some v else none
  | none => none

example : jsonParse "\x7b \"a\" : [ ] \x7d" = some (.obj (.cons "a" (.arr .nil) .nil)) := rfl
example : jsonParse (jsonStringify2 (.obj (.cons "status" (.str "delivered") .nil)))
    = some (.obj (.cons "status" (.str "delivered") .nil)) := rfl
example : jsonParse (jsonStringify2 (.arr (.cons (.num (-12)) (.cons (.str "a\nb\"") (.cons (.obj (.cons "k" .null (.cons "l" (.bool true) .nil))) .nil)))))
    = some (.arr (.cons (.num (-12)) (.cons (.str "a\nb\"") (.cons (.obj (.cons "k" .null (.cons "l" (.bool true) .nil))) .nil)))) := rfl

/-! ### Round-trip: `jsonParse` inverts `jsonStringify2` -/

theorem digitChar_isDigit (d : Nat) (h : d < 10) : isDigitCh (digitChar d) = true := by
  interval_cases d <;> decide

theorem digitChar_val (d : Nat) (h : d < 10) : (digitChar d).toNat - 48 = d := by
  interval_cases d <;> decide

theorem natCharsAux_facts : ∀ fuel n acc, n < fuel →
    ∃ ds, natCharsAux fuel n acc = ds ++ acc ∧ ds ≠ [] ∧ (∀ c ∈ ds, isDigitCh c = true) ∧
      ∀ a, ds.foldl (fun x c => x * 10 + (c.toNat - 48)) a = a * 10 ^ ds.length + n := by
  intro fuel
  induction fuel with
  | zero => omega
  | succ fuel ih =>
    intro n acc h
    by_cases h10 : n < 10
    · refine ⟨[digitChar n], by simp [natCharsAux, h10], by simp, ?_, ?_⟩
      · intro c hc; simp at hc; subst hc; exact digitChar_isDigit n h10
      · intro a; simp [digitChar_val n h10]
    · have hdiv : n / 10 < fuel := by omega
      obtain ⟨ds, heq, hne, hdig, hval⟩ := ih (n / 10) (digitChar (n % 10) :: acc) hdiv
      refine ⟨ds ++ [digitChar (n % 10)], ?_, by simp, ?_, ?_⟩
      · simp [natCharsAux, h10, heq]
      · intro c hc
        rcases List.mem_append.mp hc with h' | h'
        · exact hdig c h'
        · simp at h'; subst h'; exact digitChar_isDigit _ (Nat.mod_lt _ (by omega))
      · intro a
        rw [List.foldl_append, hval a]
        simp [digitChar_val (n % 10) (Nat.mod_lt _ (by omega))]
        rw [Nat.pow_succ]
        have := Nat.div_add_mod n 10
        ring_nf
        omega

theorem natChars_facts (n : Nat) :
    ∃ ds, natChars n = ds ∧ ds ≠ [] ∧ (∀ c ∈ ds, isDigitCh c = true) ∧
      ds.foldl (fun x c => x * 10 + (c.toNat - 48)) 0 = n := by
  obtain ⟨ds, heq, hne, hdig, hval⟩ := natCharsAux_facts (n + 1) n [] (by omega)
  exact ⟨ds, by simpa using heq, hne, hdig, by simpa using hval 0⟩

theorem parseDigits_append (ds : List Char) : ∀ (acc : Nat) (rest : List Char),
    (∀ c ∈ ds, isDigitCh c = true) → headDigit rest = false →
    parseDigits acc (ds ++ rest) = (ds.foldl (fun x c => x * 10 + (c.toNat - 48)) acc, rest) := by
  induction ds with
  | nil =>
    intro acc rest _ hr
    cases rest with
    | nil => rfl
    | cons c cs => simp [headDigit] at hr; simp [parseDigits, hr]
  | cons c ds ih =>
    intro acc rest hds hr
    have hc : isDigitCh c = true := hds c (by simp)
    simp only [List.cons_append, parseDigits, hc, if_pos]
    exact ih _ rest (fun x hx => hds x (by simp [hx])) hr

theorem skipWs_append_ws (ws : List Char) : ∀ cs, (∀ c ∈ ws, isWsChar c = true) →
    skipWs (ws ++ cs) = skipWs cs := by
  induction ws with
  | nil => intro cs _; rfl
  | cons c ws ih =>
    intro cs h
    simp only [List.cons_append, skipWs, h c (by simp), if_pos]
    exact ih cs fun x hx => h x (by simp [hx])

theorem skipWs_cons_not (c : Char) (cs : List Char) (h : isWsChar c = false) :
    skipWs (c :: cs) = c :: cs := by
  simp [skipWs, h]

theorem sIndent_ws (d : Nat) : ∀ c ∈ sIndent d, isWsChar c = true := by
  intro c hc
  simp only [sIndent, List.mem_cons, List.mem_replicate] at hc
  rcases hc with h | ⟨-, h⟩ <;> simp [h, isWsChar]

theorem skipWs_sIndent (d : Nat) (cs : List Char) : skipWs (sIndent d ++ cs) = skipWs cs :=
  skipWs_append_ws _ _ (sIndent_ws d)

theorem parseValue_wsPre (fuel : Nat) (pre cs : List Char) (h : ∀ c ∈ pre, isWsChar c = true) :
    parseValue fuel (pre ++ cs) = parseValue fuel cs := by
  cases fuel with
  | zero => rfl
  | succ fuel => simp only [parseValue, skipWs_append_ws pre cs h]

theorem hexVal_hexCharLower (x : Nat) (h : x < 16) : hexVal (hexCharLower x) = some x := by
  interval_cases x <;> decide

theorem char_ne_of_digit {c : Char} (z : Char) (h1 : 48 ≤ c.toNat) (h2 : c.toNat ≤ 57)
    (hz : z.toNat < 48 ∨ 57 < z.toNat) : c ≠ z := by
  intro heq; subst heq; omega

theorem isDigitCh_facts (c : Char) (h : isDigitCh c = true) :
    c ≠ 'n' ∧ c ≠ 't' ∧ c ≠ 'f' ∧ c ≠ '"' ∧ c ≠ '-' ∧ c ≠ '[' ∧ c ≠ '\x7b' ∧
      isWsChar c = false ∧ c ≠ ']' ∧ c ≠ ',' ∧ c ≠ '\x7d' ∧ c ≠ ':' := by
  simp only [isDigitCh, Bool.and_eq_true, decide_eq_true_eq] at h
  obtain ⟨h1, h2⟩ := h
  have hws : isWsChar c = false := by
    have w1 : c ≠ ' ' := char_ne_of_digit _ h1 h2 (by decide)
    have w2 : c ≠ '\n' := char_ne_of_digit _ h1 h2 (by decide)
    have w3 : c ≠ '\r' := char_ne_of_digit _ h1 h2 (by decide)
    have w4 : c ≠ '\t' := char_ne_of_digit _ h1 h2 (by decide)
    simp [isWsChar, w1, w2, w3, w4]
  exact ⟨char_ne_of_digit _ h1 h2 (by decide), char_ne_of_digit _ h1 h2 (by decide),
    char_ne_of_digit _ h1 h2 (by decide), char_ne_of_digit _ h1 h2 (by decide),
    char_ne_of_digit _ h1 h2 (by decide), char_ne_of_digit _ h1 h2 (by decide),
    char_ne_of_digit _ h1 h2 (by decide), hws,
    char_ne_of_digit _ h1 h2 (by decide), char_ne_of_digit _ h1 h2 (by decide),
    char_ne_of_digit _ h1 h2 (by decide), char_ne_of_digit _ h1 h2 (by decide)⟩

theorem parseStrBody_esc : ∀ (cs rest : List Char),
    parseStrBody (escChars cs ++ '"' :: rest) = some (cs, rest) := by
  intro cs
  induction cs with
  | nil =>
    intro rest
    show parseStrBody ('"' :: rest) = some ([], rest)
    rw [parseStrBody.eq_def]
    rfl
  | cons c cs ih =>
    intro rest
    simp only [escChars, List.append_assoc]
    by_cases h1 : c = '"'
    · subst h1
      have step : parseStrBody ('\\' :: '"' :: (escChars cs ++ '"' :: rest))
          = (parseStrBody (escChars cs ++ '"' :: rest)).map (fun p => ('"' :: p.1, p.2)) := by
        rw [parseStrBody.eq_def]
        rfl
      rw [show escapeChar '"' = ['\\', '"'] from rfl]
      rw [List.cons_append, List.cons_append, List.nil_append, step, ih rest]
      rfl
    by_cases h2 : c = '\\'
    · subst h2
      have step : parseStrBody ('\\' :: '\\' :: (escChars cs ++ '"' :: rest))
          = (parseStrBody (escChars cs ++ '"' :: rest)).map (fun p => ('\\' :: p.1, p.2)) := by
        rw [parseStrBody.eq_def]
        rfl
      rw [show escapeChar '\\' = ['\\', '\\'] from rfl]
      rw [List.cons_append, List.cons_append, List.nil_append, step, ih rest]
      rfl
    by_cases h3 : c = '\x08'
    · subst h3
      have step : parseStrBody ('\\' :: 'b' :: (escChars cs ++ '"' :: rest))
          = (parseStrBody (escChars cs ++ '"' :: rest)).map (fun p => ('\x08' :: p.1, p.2)) := by
        rw [parseStrBody.eq_def]
        rfl
      rw [show escapeChar '\x08' = ['\\', 'b'] from rfl]
      rw [List.cons_append, List.cons_append, List.nil_append, step, ih rest]
      rfl
    by_cases h4 : c = '\x0c'
    · subst h4
      have step : parseStrBody ('\\' :: 'f' :: (escChars cs ++ '"' :: rest))
          = (parseStrBody (escChars cs ++ '"' :: rest)).map (fun p => ('\x0c' :: p.1, p.2)) := by
        rw [parseStrBody.eq_def]
        rfl
      rw [show escapeChar '\x0c' = ['\\', 'f'] from rfl]
      rw [List.cons_append, List.cons_append, List.nil_append, step, ih rest]
      rfl
    by_cases h5 : c = '\n'
    · subst h5
      have step : parseStrBody ('\\' :: 'n' :: (escChars cs ++ '"' :: rest))
          = (parseStrBody (escChars cs ++ '"' :: rest)).map (fun p => ('\n' :: p.1, p.2)) := by
        rw [parseStrBody.eq_def]
        rfl
      rw [show escapeChar '\n' = ['\\', 'n'] from rfl]
      rw [List.cons_append, List.cons_append, List.nil_append, step, ih rest]
      rfl
    by_cases h6 : c = '\r'
    · subst h6
      have step : parseStrBody ('\\' :: 'r' :: (escChars cs ++ '"' :: rest))
          = (parseStrBody (escChars cs ++ '"' :: rest)).map (fun p => ('\r' :: p.1, p.2)) := by
        rw [parseStrBody.eq_def]
        rfl
      rw [show escapeChar '\r' = ['\\', 'r'] from rfl]
      rw [List.cons_append, List.cons_append, List.nil_append, step, ih rest]
      rfl
    by_cases h7 : c = '\t'
    · subst h7
      have step : parseStrBody ('\\' :: 't' :: (escChars cs ++ '"' :: rest))
          = (parseStrBody (escChars cs ++ '"' :: rest)).map (fun p => ('\t' :: p.1, p.2)) := by
        rw [parseStrBody.eq_def]
        rfl
      rw [show escapeChar '\t' = ['\\', 't'] from rfl]
      rw [List.cons_append, List.cons_append, List.nil_append, step, ih rest]
      rfl
    by_cases h8 : c.toNat < 32
    · have hdiv : c.toNat / 16 < 16 := by omega
      have hmod : c.toNat % 16 < 16 := by omega
      have hesc : escapeChar c
          = ['\\', 'u', '0', '0', hexCharLower (c.toNat / 16), hexCharLower (c.toNat % 16)] := by
        simp [escapeChar, h1, h2, h3, h4, h5, h6, h7, h8]
      rw [hesc]
      have step : parseStrBody ('\\' :: 'u' :: '0' :: '0' :: hexCharLower (c.toNat / 16)
            :: hexCharLower (c.toNat % 16) :: (escChars cs ++ '"' :: rest))
          = match hex4 '0' '0' (hexCharLower (c.toNat / 16)) (hexCharLower (c.toNat % 16)) with
            | some val => (parseStrBody (escChars cs ++ '"' :: rest)).map
                (fun p => (Char.ofNat val :: p.1, p.2))
            | none => none := by
        rw [parseStrBody.eq_def]
        rfl
      have hx : hex4 '0' '0' (hexCharLower (c.toNat / 16)) (hexCharLower (c.toNat % 16))
          = some c.toNat := by
        simp only [hex4, hexVal_hexCharLower _ hdiv, hexVal_hexCharLower _ hmod,
          show hexVal '0' = some 0 from rfl]
        congr 1
        omega
      rw [List.cons_append, List.cons_append, List.cons_append, List.cons_append,
        List.cons_append, List.cons_append, List.nil_append, step, hx]
      show (parseStrBody (escChars cs ++ '"' :: rest)).map
          (fun p => (Char.ofNat c.toNat :: p.1, p.2)) = some (c :: cs, rest)
      rw [ih rest, Char.ofNat_toNat]
      rfl
    · have hesc : escapeChar c = [c] := by
        simp [escapeChar, h1, h2, h3, h4, h5, h6, h7, h8]
      rw [hesc]
      have step : parseStrBody (c :: (escChars cs ++ '"' :: rest))
          = (parseStrBody (escChars cs ++ '"' :: rest)).map (fun p => (c :: p.1, p.2)) := by
        rw [parseStrBody.eq_def]
        simp [h1, h2]
      rw [List.cons_append, List.nil_append, step, ih rest]
      rfl

theorem parseValue_head (fuel : Nat) (cs : List Char) (c : Char) (cs1 : List Char)
    (h : skipWs cs = c :: cs1) :
    parseValue (fuel + 1) cs = parseHead (parseItems fuel) (parseFields fuel) c cs1 := by
  rw [parseValue.eq_def]
  show (match skipWs cs with
        | [] => none
        | c :: cs1 => parseHead (parseItems fuel) (parseFields fuel) c cs1) = _
  rw [h]

theorem parseHead_null {pI pF} (r : List Char) :
    parseHead pI pF 'n' ('u' :: 'l' :: 'l' :: r) = some (.null, r) := by
  rw [parseHead.eq_def]; rfl

theorem parseHead_true {pI pF} (r : List Char) :
    parseHead pI pF 't' ('r' :: 'u' :: 'e' :: r) = some (.bool true, r) := by
  rw [parseHead.eq_def]; rfl

theorem parseHead_false {pI pF} (r : List Char) :
    parseHead pI pF 'f' ('a' :: 'l' :: 's' :: 'e' :: r) = some (.bool false, r) := by
  rw [parseHead.eq_def]; rfl

theorem parseHead_str {pI pF} (cs1 : List Char) :
    parseHead pI pF '"' cs1 = (parseStrBody cs1).map (fun p => (.str (String.mk p.1), p.2)) := by
  rw [parseHead.eq_def]; rfl

theorem parseHead_neg {pI pF} (d : Char) (cs2 : List Char) (hd : isDigitCh d = true) :
    parseHead pI pF '-' (d :: cs2)
      = some (.num (-((parseDigits (d.toNat - 48) cs2).1 : Int)),
          (parseDigits (d.toNat - 48) cs2).2) := by
  rw [parseHead.eq_def]
  show (if isDigitCh d then _ else none) = _
  rw [hd]
  rfl

theorem parseHead_digit {pI pF} (c : Char) (cs1 : List Char) (hc : isDigitCh c = true) :
    parseHead pI pF c cs1
      = some (.num ((parseDigits (c.toNat - 48) cs1).1 : Int),
          (parseDigits (c.toNat - 48) cs1).2) := by
  obtain ⟨n1, n2, n3, n4, n5, -, -, -, -, -, -, -⟩ := isDigitCh_facts c hc
  rw [parseHead.eq_def]
  simp only [if_neg n1, if_neg n2, if_neg n3, if_neg n4, if_neg n5, hc, if_true]

theorem parseHead_arr {pI pF} (cs1 : List Char) :
    parseHead pI pF '[' cs1
      = match skipWs cs1 with
        | ']' :: r => some (.arr .nil, r)
        | _ => (pI cs1).map (fun p => (.arr p.1, p.2)) := by
  rw [parseHead.eq_def]; rfl

theorem parseHead_obj {pI pF} (cs1 : List Char) :
    parseHead pI pF '\x7b' cs1
      = match skipWs cs1 with
        | '\x7d' :: r => some (.obj .nil, r)
        | _ => (pF cs1).map (fun p => (.obj p.1, p.2)) := by
  rw [parseHead.eq_def]; rfl

theorem parseItems_step (fuel : Nat) (cs : List Char) (v : Json) (r : List Char)
    (h : parseValue fuel cs = some (v, r)) :
    parseItems (fuel + 1) cs = itemsCont (parseItems fuel) v r := by
  rw [parseItems.eq_def]
  show (match parseValue fuel cs with
        | none => none
        | some (v, r) => itemsCont (parseItems fuel) v r) = _
  rw [h]

theorem itemsCont_comma {pI} (v : Json) (r r2 : List Char) (h : skipWs r = ',' :: r2) :
    itemsCont pI v r = (pI r2).map (fun p => (.cons v p.1, p.2)) := by
  rw [itemsCont, h]
  rfl

theorem itemsCont_close {pI} (v : Json) (r r2 : List Char) (h : skipWs r = ']' :: r2) :
    itemsCont pI v r = some (.cons v .nil, r2) := by
  rw [itemsCont, h]
  rfl

theorem parseFields_step (fuel : Nat) (cs cs1 : List Char) (k : List Char) (r r2 : List Char)
    (v : Json) (r3 : List Char)
    (hcs : skipWs cs = '"' :: cs1) (hk : parseStrBody cs1 = some (k, r))
    (hr : skipWs r = ':' :: r2) (hv : parseValue fuel r2 = some (v, r3)) :
    parseFields (fuel + 1) cs = fieldsCont (parseFields fuel) k v r3 := by
  rw [parseFields.eq_def]
  show (match skipWs cs with
        | '"' :: cs1 =>
          (match parseStrBody cs1 with
           | none => none
           | some (k, r) =>
             match skipWs r with
             | ':' :: r2 =>
               (match parseValue fuel r2 with
                | none => none
                | some (v, r3) => fieldsCont (parseFields fuel) k v r3)
             | _ => none)
        | _ => none) = _
  rw [hcs]
  show (match parseStrBody cs1 with
        | none => none
        | some (k, r) =>
          match skipWs r with
          | ':' :: r2 =>
            (match parseValue fuel r2 with
             | none => none
             | some (v, r3) => fieldsCont (parseFields fuel) k v r3)
          | _ => none) = _
  rw [hk]
  show (match skipWs r with
        | ':' :: r2 =>
          (match parseValue fuel r2 with
           | none => none
           | some (v, r3) => fieldsCont (parseFields fuel) k v r3)
        | _ => none) = _
  rw [hr]
  show (match parseValue fuel r2 with
        | none => none
        | some (v, r3) => fieldsCont (parseFields fuel) k v r3) = _
  rw [hv]

theorem fieldsCont_comma {pF} (k : List Char) (v : Json) (r3 r4 : List Char)
    (h : skipWs r3 = ',' :: r4) :
    fieldsCont pF k v r3 = (pF r4).map (fun p => (.cons (String.mk k) v p.1, p.2)) := by
  rw [fieldsCont, h]
  rfl

theorem fieldsCont_close {pF} (k : List Char) (v : Json) (r3 r4 : List Char)
    (h : skipWs r3 = '\x7d' :: r4) :
    fieldsCont pF k v r3 = some (.cons (String.mk k) v .nil, r4) := by
  rw [fieldsCont, h]
  rfl

theorem headDigit_cons (c : Char) (cs : List Char) : headDigit (c :: cs) = isDigitCh c := rfl

theorem parseValue_wsCons (fuel : Nat) (c : Char) (cs : List Char) (h : isWsChar c = true) :
    parseValue fuel (c :: cs) = parseValue fuel cs := by
  cases fuel with
  | zero => rfl
  | succ fuel => simp only [parseValue, show skipWs (c :: cs) = skipWs cs from by simp [skipWs, h]]

theorem intChars_head (n : Int) :
    ∃ c cs, intChars n = c :: cs ∧ isWsChar c = false ∧ c ≠ ']' := by
  by_cases hn : n < 0
  · exact ⟨'-', natChars n.natAbs, by simp [intChars, hn], by decide, by decide⟩
  · obtain ⟨ds, heq, hne, hdig, -⟩ := natChars_facts n.natAbs
    obtain ⟨c, cs, rfl⟩ := List.exists_cons_of_ne_nil hne
    obtain ⟨-, -, -, -, -, -, -, hws, hrb, -, -, -⟩ := isDigitCh_facts c (hdig c (by simp))
    exact ⟨c, cs, by simp [intChars, hn, heq], hws, hrb⟩

theorem stringify2At_head (d : Nat) (v : Json) :
    ∃ c cs, stringify2At d v = c :: cs ∧ isWsChar c = false ∧ c ≠ ']' := by
  cases v with
  | null => exact ⟨'n', ['u', 'l', 'l'], by simp [stringify2At], by decide, by decide⟩
  | bool b =>
    cases b with
    | true => exact ⟨'t', ['r', 'u', 'e'], by simp [stringify2At], by decide, by decide⟩
    | false => exact ⟨'f', ['a', 'l', 's', 'e'], by simp [stringify2At], by decide, by decide⟩
  | num n =>
    obtain ⟨c, cs, heq, hws, hrb⟩ := intChars_head n
    exact ⟨c, cs, by simp [stringify2At, heq], hws, hrb⟩
  | str s =>
    exact ⟨'"', escChars s.data ++ ['"'], by simp [stringify2At, quoteChars], by decide, by decide⟩
  | arr xs =>
    cases xs with
    | nil => exact ⟨'[', [']'], by simp [stringify2At], by decide, by decide⟩
    | cons x tl =>
      exact ⟨'[', items2 (d + 1) (.cons x tl) ++ sIndent d ++ [']'],
        by simp [stringify2At], by decide, by decide⟩
  | obj fs =>
    cases fs with
    | nil => exact ⟨'\x7b', ['\x7d'], by simp [stringify2At], by decide, by decide⟩
    | cons k v tl =>
      exact ⟨'\x7b', fields2 (d + 1) (.cons k v tl) ++ sIndent d ++ ['\x7d'],
        by simp [stringify2At], by decide, by decide⟩

theorem jsize_pos (v : Json) : 1 ≤ jsize v := by
  cases v <;> simp [jsize]

mutual
theorem jsize_le_len : ∀ (d : Nat) (v : Json), jsize v ≤ (stringify2At d v).length
  | _, .null => by simp [jsize, stringify2At]
  | _, .bool true => by simp [jsize, stringify2At]
  | _, .bool false => by simp [jsize, stringify2At]
  | _, .num n => by
    obtain ⟨c, cs, heq, -, -⟩ := intChars_head n
    simp [jsize, stringify2At, heq]
  | _, .str s => by simp [jsize, stringify2At, quoteChars]
  | _, .arr .nil => by simp [jsize, jsizeL, stringify2At]
  | d, .arr (.cons x tl) => by
    have h := jsizeL_le_len (d + 1) (.cons x tl)
    simp only [jsize, stringify2At, List.length_cons, List.length_append]
    omega
  | _, .obj .nil => by simp [jsize, jsizeF, stringify2At]
  | d, .obj (.cons k v tl) => by
    have h := jsizeF_le_len (d + 1) (.cons k v tl)
    simp only [jsize, stringify2At, List.length_cons, List.length_append]
    omega
theorem jsizeL_le_len : ∀ (d : Nat) (xs : JsonList), jsizeL xs ≤ (items2 d xs).length
  | _, .nil => by simp [jsizeL, items2]
  | d, .cons x .nil => by
    have h := jsize_le_len d x
    simp only [jsizeL, items2, List.length_append, sIndent, List.length_cons,
      List.length_replicate]
    omega
  | d, .cons x (.cons y tl) => by
    have h1 := jsize_le_len d x
    have h2 := jsizeL_le_len d (.cons y tl)
    simp only [jsizeL, items2, List.length_append, sIndent, List.length_cons,
      List.length_replicate] at h2 ⊢
    omega
theorem jsizeF_le_len : ∀ (d : Nat) (fs : JsonFields), jsizeF fs ≤ (fields2 d fs).length
  | _, .nil => by simp [jsizeF, fields2]
  | d, .cons k v .nil => by
    have h := jsize_le_len d v
    simp only [jsizeF, fields2, List.length_append, sIndent, List.length_cons,
      List.length_replicate]
    omega
  | d, .cons k v (.cons k2 v2 tl) => by
    have h1 := jsize_le_len d v
    have h2 := jsizeF_le_len d (.cons k2 v2 tl)
    simp only [jsizeF, fields2, List.length_append, sIndent, List.length_cons,
      List.length_replicate] at h2 ⊢
    omega
end

theorem headDigit_sIndent (dd : Nat) (cs : List Char) : headDigit (sIndent dd ++ cs) = false := by
  simp [sIndent, headDigit, isDigitCh]

theorem skipWs_items2 (d : Nat) (x : Json) (tl : JsonList) (R : List Char) :
    ∃ c cs2, skipWs (items2 d (.cons x tl) ++ R) = c :: cs2 ∧ c ≠ ']' := by
  obtain ⟨c, cs, hS, hws, hrb⟩ := stringify2At_head d x
  cases tl with
  | nil =>
    refine ⟨c, cs ++ R, ?_, hrb⟩
    simp only [items2, List.append_assoc]
    rw [skipWs_sIndent, hS, List.cons_append, skipWs_cons_not _ _ hws]
  | cons y tl' =>
    refine ⟨c, cs ++ (',' :: items2 d (.cons y tl') ++ R), ?_, hrb⟩
    simp only [items2, List.append_assoc, List.cons_append]
    rw [skipWs_sIndent, hS, List.cons_append, skipWs_cons_not _ _ hws]

theorem skipWs_fields2 (d : Nat) (k : String) (v : Json) (tl : JsonFields) (R : List Char) :
    ∃ cs2, skipWs (fields2 d (.cons k v tl) ++ R) = '"' :: cs2 := by
  cases tl with
  | nil =>
    refine ⟨escChars k.data ++ ('"' :: (':' :: (' ' :: (stringify2At d v ++ R)))), ?_⟩
    simp only [fields2, quoteChars, List.append_assoc, List.cons_append,
      List.singleton_append, List.nil_append]
    rw [skipWs_sIndent, skipWs_cons_not _ _ (by decide)]
  | cons k2 v2 tl' =>
    refine ⟨escChars k.data ++ ('"' :: (':' :: (' ' :: (stringify2At d v
      ++ (',' :: (fields2 d (.cons k2 v2 tl') ++ R)))))), ?_⟩
    simp only [fields2, quoteChars, List.append_assoc, List.cons_append,
      List.singleton_append, List.nil_append]
    rw [skipWs_sIndent, skipWs_cons_not _ _ (by decide)]

theorem parseRound : ∀ fuel : Nat,
    (∀ (v : Json) (d : Nat) (rest : List Char), jsize v ≤ fuel → headDigit rest = false →
      parseValue fuel (stringify2At d v ++ rest) = some (v, rest)) ∧
    (∀ (x : Json) (tl : JsonList) (d dd : Nat) (rest : List Char),
      jsizeL (.cons x tl) ≤ fuel →
      parseItems fuel (items2 d (.cons x tl) ++ (sIndent dd ++ ']' :: rest))
        = some (.cons x tl, rest)) ∧
    (∀ (k : String) (v : Json) (tl : JsonFields) (d dd : Nat) (rest : List Char),
      jsizeF (.cons k v tl) ≤ fuel →
      parseFields fuel (fields2 d (.cons k v tl) ++ (sIndent dd ++ '\x7d' :: rest))
        = some (.cons k v tl, rest)) := by
  intro fuel
  induction fuel with
  | zero =>
    refine ⟨?_, ?_, ?_⟩
    · intro v d rest hsz _; have := jsize_pos v; omega
    · intro x tl d dd rest hsz
      have := jsize_pos x; simp only [jsizeL] at hsz; omega
    · intro k v tl d dd rest hsz
      have := jsize_pos v; simp only [jsizeF] at hsz; omega
  | succ fuel ih =>
    obtain ⟨ihP, ihQ, ihR⟩ := ih
    refine ⟨?_, ?_, ?_⟩
    · -- a rendered value parses back
      intro v d rest hsz hrest
      cases v with
      | null =>
        simp only [stringify2At, List.cons_append, List.nil_append]
        rw [parseValue_head fuel _ 'n' ('u' :: 'l' :: 'l' :: rest)
          (skipWs_cons_not _ _ (by decide))]
        exact parseHead_null rest
      | bool b =>
        cases b with
        | true =>
          simp only [stringify2At, List.cons_append, List.nil_append]
          rw [parseValue_head fuel _ 't' ('r' :: 'u' :: 'e' :: rest)
            (skipWs_cons_not _ _ (by decide))]
          exact parseHead_true rest
        | false =>
          simp only [stringify2At, List.cons_append, List.nil_append]
          rw [parseValue_head fuel _ 'f' ('a' :: 'l' :: 's' :: 'e' :: rest)
            (skipWs_cons_not _ _ (by decide))]
          exact parseHead_false rest
      | num n =>
        simp only [stringify2At]
        obtain ⟨ds, hds, hne, hdig, hval⟩ := natChars_facts n.natAbs
        obtain ⟨c, ds', rfl⟩ := List.exists_cons_of_ne_nil hne
        have hcdig : isDigitCh c = true := hdig c (by simp)
        have htl : ∀ e ∈ ds', isDigitCh e = true := fun e he => hdig e (by simp [he])
        have hpd : parseDigits (c.toNat - 48) (ds' ++ rest) = (n.natAbs, rest) := by
          rw [parseDigits_append ds' _ rest htl hrest]
          have hv : List.foldl (fun x c => x * 10 + (c.toNat - 48)) 0 (c :: ds') = n.natAbs :=
            hval
          simp only [List.foldl_cons] at hv
          simpa using hv
        by_cases hn : n < 0
        · rw [show intChars n = '-' :: natChars n.natAbs from by simp [intChars, hn], hds]
          simp only [List.cons_append]
          rw [parseValue_head fuel _ '-' (c :: (ds' ++ rest))
            (skipWs_cons_not _ _ (by decide))]
          rw [parseHead_neg c (ds' ++ rest) hcdig, hpd]
          have hcast : -(n.natAbs : Int) = n := by omega
          rw [hcast]
        · rw [show intChars n = natChars n.natAbs from by simp [intChars, hn], hds]
          simp only [List.cons_append]
          obtain ⟨-, -, -, -, -, -, -, hws, -, -, -, -⟩ := isDigitCh_facts c hcdig
          rw [parseValue_head fuel _ c (ds' ++ rest) (skipWs_cons_not _ _ hws)]
          rw [parseHead_digit c (ds' ++ rest) hcdig, hpd]
          have hcast : (n.natAbs : Int) = n := by omega
          rw [hcast]
      | str s =>
        simp only [stringify2At, quoteChars, List.cons_append, List.append_assoc,
          List.singleton_append, List.nil_append]
        rw [parseValue_head fuel _ '"' (escChars s.data ++ '"' :: rest)
          (skipWs_cons_not _ _ (by decide))]
        rw [parseHead_str, parseStrBody_esc s.data rest]
        rfl
      | arr xs =>
        cases xs with
        | nil =>
          simp only [stringify2At, List.cons_append, List.nil_append]
          rw [parseValue_head fuel _ '[' (']' :: rest) (skipWs_cons_not _ _ (by decide))]
          rw [parseHead_arr, skipWs_cons_not _ _ (by decide)]
          rfl
        | cons x tl =>
          simp only [stringify2At, List.cons_append, List.append_assoc,
            List.singleton_append, List.nil_append]
          rw [parseValue_head fuel _ '['
            (items2 (d + 1) (.cons x tl) ++ (sIndent d ++ ']' :: rest))
            (skipWs_cons_not _ _ (by decide))]
          rw [parseHead_arr]
          obtain ⟨c, cs2, hskip, hrb⟩ :=
            skipWs_items2 (d + 1) x tl (sIndent d ++ ']' :: rest)
          rw [hskip]
          split
          · next r heq =>
            injection heq with h1 h2
            exact absurd h1 hrb
          · next hne =>
            rw [ihQ x tl (d + 1) d rest (by simp only [jsize] at hsz; omega)]
            rfl
      | obj fs =>
        cases fs with
        | nil =>
          simp only [stringify2At, List.cons_append, List.nil_append]
          rw [parseValue_head fuel _ '\x7b' ('\x7d' :: rest) (skipWs_cons_not _ _ (by decide))]
          rw [parseHead_obj, skipWs_cons_not _ _ (by decide)]
          rfl
        | cons k v tl =>
          simp only [stringify2At, List.cons_append, List.append_assoc,
            List.singleton_append, List.nil_append]
          rw [parseValue_head fuel _ '\x7b'
            (fields2 (d + 1) (.cons k v tl) ++ (sIndent d ++ '\x7d' :: rest))
            (skipWs_cons_not _ _ (by decide))]
          rw [parseHead_obj]
          obtain ⟨cs2, hskip⟩ :=
            skipWs_fields2 (d + 1) k v tl (sIndent d ++ '\x7d' :: rest)
          rw [hskip]
          split
          · next r heq =>
            injection heq with h1 h2
            exact absurd h1 (by decide)
          · next hne =>
            rw [ihR k v tl (d + 1) d rest (by simp only [jsize] at hsz; omega)]
            rfl
    · -- a rendered nonempty array body parses back
      intro x tl d dd rest hsz
      simp only [jsizeL] at hsz
      cases tl with
      | nil =>
        simp only [items2, List.append_assoc]
        have hx : parseValue fuel (sIndent d ++ (stringify2At d x ++ (sIndent dd ++ ']' :: rest)))
            = some (x, sIndent dd ++ ']' :: rest) := by
          rw [parseValue_wsPre fuel (sIndent d) _ (sIndent_ws d)]
          exact ihP x d _ (by have := jsize_pos x; omega) (headDigit_sIndent dd _)
        rw [parseItems_step fuel _ x _ hx]
        rw [itemsCont_close x _ rest (by rw [skipWs_sIndent, skipWs_cons_not _ _ (by decide)])]
      | cons y tl' =>
        simp only [items2, List.append_assoc, List.cons_append]
        have hx : parseValue fuel (sIndent d ++ (stringify2At d x
              ++ (',' :: (items2 d (.cons y tl') ++ (sIndent dd ++ ']' :: rest)))))
            = some (x, ',' :: (items2 d (.cons y tl') ++ (sIndent dd ++ ']' :: rest))) := by
          rw [parseValue_wsPre fuel (sIndent d) _ (sIndent_ws d)]
          exact ihP x d _ (by have := jsize_pos y; simp only [jsizeL] at hsz; omega)
            (by rw [headDigit_cons]; decide)
        rw [parseItems_step fuel _ x _ hx]
        rw [itemsCont_comma x _ _ (skipWs_cons_not _ _ (by decide))]
        rw [ihQ y tl' d dd rest (by simp only [jsizeL] at hsz ⊢
                                    have := jsize_pos x; omega)]
        rfl
    · -- a rendered nonempty object body parses back
      intro k v tl d dd rest hsz
      simp only [jsizeF] at hsz
      cases tl with
      | nil =>
        simp only [fields2, quoteChars, List.append_assoc, List.cons_append,
          List.singleton_append, List.nil_append]
        have hv : parseValue fuel (' ' :: (stringify2At d v ++ (sIndent dd ++ '\x7d' :: rest)))
            = some (v, sIndent dd ++ '\x7d' :: rest) := by
          rw [parseValue_wsCons fuel ' ' _ (by decide)]
          exact ihP v d _ (by have := jsize_pos v; omega) (headDigit_sIndent dd _)
        rw [parseFields_step fuel _ _ k.data _ _ v _
          (by rw [skipWs_sIndent, skipWs_cons_not _ _ (by decide)])
          (parseStrBody_esc k.data _)
          (skipWs_cons_not _ _ (by decide))
          hv]
        rw [fieldsCont_close k.data v _ rest
          (by rw [skipWs_sIndent, skipWs_cons_not _ _ (by decide)])]
      | cons k2 v2 tl' =>
        simp only [fields2, quoteChars, List.append_assoc, List.cons_append,
          List.singleton_append, List.nil_append]
        have hv : parseValue fuel (' ' :: (stringify2At d v
              ++ (',' :: (fields2 d (.cons k2 v2 tl') ++ (sIndent dd ++ '\x7d' :: rest)))))
            = some (v, ',' :: (fields2 d (.cons k2 v2 tl') ++ (sIndent dd ++ '\x7d' :: rest))) := by
          rw [parseValue_wsCons fuel ' ' _ (by decide)]
          exact ihP v d _ (by have := jsize_pos v; omega) (by rw [headDigit_cons]; decide)
        rw [parseFields_step fuel _ _ k.data _ _ v _
          (by rw [skipWs_sIndent, skipWs_cons_not _ _ (by decide)])
          (parseStrBody_esc k.data _)
          (skipWs_cons_not _ _ (by decide))
          hv]
        rw [fieldsCont_comma k.data v _ _ (skipWs_cons_not _ _ (by decide))]
        rw [ihR k2 v2 tl' d dd rest (by simp only [jsizeF] at hsz ⊢
                                        have := jsize_pos v; omega)]
        rfl

/-- `JSON.parse` inverts `JSON.stringify(v, null, 2)`: re-parsing a
pretty-printed value yields the value back. -/
theorem jsonParse_stringify2 (v : Json) : jsonParse (jsonStringify2 v) = some v := by
  have hdata : (jsonStringify2 v).data = stringify2At 0 v := rfl
  rw [jsonParse, hdata]
  have hP := (parseRound ((stringify2At 0 v).length + 1)).1 v 0 []
    (by have := jsize_le_len 0 v; omega) rfl
  rw [List.append_nil] at hP
  rw [hP]
  rfl

/-! ### `encodeURIComponent` (used for GET query strings) -/

/-- Uppercase hexadecimal digit, as used in percent-escapes. -/
def hexCharUpper : Nat → Char
  | 0 => '0' | 1 => '1' | 2 => '2' | 3 => '3' | 4 => '4'
  | 5 => '5' | 6 => '6' | 7 => '7' | 8 => '8' | 9 => '9'
  | 10 => 'A' | 11 => 'B' | 12 => 'C' | 13 => 'D' | 14 => 'E' | _ => 'F'

/-- Characters `encodeURIComponent` leaves unescaped. -/
def isUriUnreserved (c : Char) : Bool :=
  (65 ≤ c.toNat && c.toNat ≤ 90) || (97 ≤ c.toNat && c.toNat ≤ 122) ||
    (48 ≤ c.toNat && c.toNat ≤ 57) ||
    c = '-' || c = '_' || c = '.' || c = '!' || c = '~' || c = '*' || c = '\'' ||
    c = '(' || c = ')'

/-- UTF-8 bytes of a unicode scalar value. -/
def utf8Bytes (n : Nat) : List Nat :=
  if n < 0x80 then [n]
  else if n < 0x800 then [0xC0 + n / 64, 0x80 + n % 64]
  else if n < 0x10000 then [0xE0 + n / 4096, 0x80 + n / 64 % 64, 0x80 + n % 64]
  else [0xF0 + n / 262144, 0x80 + n / 4096 % 64, 0x80 + n / 64 % 64, 0x80 + n % 64]

/-- Percent-escape one byte. -/
def pctByte (b : Nat) : List Char := ['%', hexCharUpper (b / 16), hexCharUpper (b % 16)]

/-- `encodeURIComponent` of one character. -/
def encUriChar (c : Char) : List Char :=
  if isUriUnreserved c then [c]
  else ((utf8Bytes c.toNat).map pctByte).flatten

/-- `encodeURIComponent` (Lean characters are unicode scalar values, so
the lone-surrogate failure case of the JS built-in cannot arise). -/
def encodeURIComponent (s : String) : String :=
  String.mk ((s.data.map encUriChar).flatten)

example : encodeURIComponent "abc-123" = "abc-123" := rfl
example : encodeURIComponent "a b/ц" = "a%20b%2F%D1%86" := rfl

/-! ### The Upstream Client Adapter: `YandexDeliveryClient` from
`client.ts`.  `request(method, endpoint, body?)` is split into the
outbound request it hands to `fetch` (`buildRequest`) and the handling
of the response `fetch` produced (`handleResponse`); the network itself
is a parameter of type `UpstreamResponse`. -/

structure YandexDeliveryClient where
  baseUrl : String
  apiKey : String

/-- `new YandexDeliveryClient(apiKey)`. -/
def mkYandexDeliveryClient (apiKey : String) : YandexDeliveryClient :=
  { baseUrl := "https://b2b.taxi.yandex.net", apiKey := apiKey }

structure OutboundRequest where
  method : String
  url : String
  headers : List (String × String)
  body : Option String

/-- What `fetch` returned: the HTTP status, its status text, and the
result of `response.json()` (`none` when the body is not valid JSON and
the promise rejects). -/
structure UpstreamResponse where
  status : Nat
  statusText : String
  jsonBody : Option Json

/-- `Response.ok`: status in the inclusive range 200–299. -/
def respOk (r : UpstreamResponse) : Bool := 200 ≤ r.status && r.status ≤ 299

/-- How a `request` call can fail (the promise rejects). -/
inductive JsFailure where
  | syntaxError : JsFailure
  | typeError (msg : String) : JsFailure
  | apiError (msg : String) : JsFailure
deriving DecidableEq

/-- Property read `v.message`-style on a non-null value: objects get
first-key lookup, everything else yields `undefined` (`none`). -/
def jsGet : Json → String → Option Json
  | .obj fs, k => fs.lookup k
  | _, _ => none

/-!
Template-literal string coercion of a JSON-compatible value, as in
the thrown message.  Array elements coerce with `null` printed empty.
-/
mutual
def jsToString : Json → String
  | .null => "null"
  | .bool true => "true"
  | .bool false => "false"
  | .num n => String.mk (intChars n)
  | .str s => s
  | .arr xs => jsArrToString xs
  | .obj _ => "[object Object]"
def jsArrToString : JsonList → String
  | .nil => ""
  | .cons x tl =>
    (match x with
     | .null => ""
     | x => jsToString x)
      ++ match tl with
         | .nil => ""
         | tl => "," ++ jsArrToString tl
end

/-- The expression `data.message || response.statusText` on non-null
`data`, coerced to a string by the template literal. -/
def upstreamMessage (data : Json) (statusText : String) : String :=
  match jsGet data "message" with
  | some m => if jsTruthy m then jsToString m else statusText
  | none => statusText

/-- The outbound request `fetch(url, options)` receives.  The body is
attached only when the `body` argument is truthy and the verb is not
`GET`, serialized with `JSON.stringify`. -/
def buildRequest (c : YandexDeliveryClient) (method endpoint : String) (body : Option Json) :
    OutboundRequest :=
  { method := method
    url := c.baseUrl ++ endpoint
    headers := [("Content-Type", "application/json"),
                ("Authorization", "Bearer " ++ c.apiKey),
                ("Accept", "application/json")]
    body :=
      match body with
      | some b => if jsTruthy b && method != "GET" then some (jsonStringify b) else none
      | none => none }

/-- `request` after `fetch` resolved: `response.json()` is awaited
before the status is inspected, so a non-JSON body always rejects with
a parse error; then a non-ok status throws
`API Error: (data.message or statusText)` (a null body makes the
`data.message` read itself throw); an ok status returns the parsed
body. -/
def handleResponse (resp : UpstreamResponse) : Except JsFailure Json :=
  match resp.jsonBody with
  | none => .error .syntaxError
  | some data =>
    if respOk resp then .ok data
    else
      match data with
      | .null => .error (.typeError "Cannot read properties of null (reading 'message')")
      | _ => .error (.apiError ("API Error: " ++ upstreamMessage data resp.statusText))

/-- One `this.request(method, endpoint, body)` call: the single request
it issues and the result of handling the response. -/
def clientRequest (c : YandexDeliveryClient) (method endpoint : String) (body : Option Json)
    (resp : UpstreamResponse) : List OutboundRequest × Except JsFailure Json :=
  ([buildRequest c method endpoint body], handleResponse resp)

/-- Build a `JsonList` of strings. -/
def strJsonList : List String → JsonList
  | [] => .nil
  | s :: tl => .cons (.str s) (strJsonList tl)

/-- Fields contributed by spreading `...params` into an object literal
(the adapter spreads only values typed as plain objects). -/
def jsSpreadPairs : Json → JsonFields
  | .obj fs => fs
  | _ => .nil

/-- One JS object-literal assignment: an existing key keeps its position
and receives the new value, a new key is appended. -/
def objAssign : JsonFields → String → Json → JsonFields
  | .nil, k, v => .cons k v .nil
  | .cons k' v' tl, k, v =>
    if k' == k then .cons k' v tl else .cons k' v' (objAssign tl k v)

/-- Assign every field in order, as an object literal with a trailing
spread does. -/
def objAssignAll (props : JsonFields) : JsonFields → JsonFields
  | .nil => props
  | .cons k v tl => objAssignAll (objAssign props k v) tl

namespace YandexDeliveryClient

def calculateOffers (c : YandexDeliveryClient) (params : Json) :=
  clientRequest c "POST" "/b2b/cargo/integration/v2/offers/calculate" (some params)

def createClaim (c : YandexDeliveryClient) (params : Json) :=
  clientRequest c "POST" "/b2b/cargo/integration/v2/claims/create" (some params)

def getClaimInfo (c : YandexDeliveryClient) (claimId : String) :=
  clientRequest c "POST" "/b2b/cargo/integration/v2/claims/info"
    (some (.obj (.cons "claim_id" (.str claimId) .nil)))

def acceptClaim (c : YandexDeliveryClient) (claimId : String) (version : Int) :=
  clientRequest c "POST" "/b2b/cargo/integration/v2/claims/accept"
    (some (.obj (.cons "claim_id" (.str claimId) (.cons "version" (.num version) .nil))))

def getCancelInfo (c : YandexDeliveryClient) (claimId : String) :=
  clientRequest c "POST" "/b2b/cargo/integration/v2/claims/cancel-info"
    (some (.obj (.cons "claim_id" (.str claimId) .nil)))

/-- `cancel_state` may be `undefined`, in which case `JSON.stringify`
drops the field from the serialized body. -/
def cancelClaim (c : YandexDeliveryClient) (claimId : String) (version : Int)
    (cancelState : Option String) :=
  clientRequest c "POST" "/b2b/cargo/integration/v2/claims/cancel"
    (some (.obj (.cons "claim_id" (.str claimId) (.cons "version" (.num version)
      (optField "cancel_state" (cancelState.map .str) .nil)))))

def checkPrice (c : YandexDeliveryClient) (params : Json) :=
  clientRequest c "POST" "/b2b/cargo/integration/v2/check-price" (some params)

def getTariffs (c : YandexDeliveryClient) (params : Json) :=
  clientRequest c "POST" "/b2b/cargo/integration/v2/tariffs" (some params)

def getDriverVoiceForwarding (c : YandexDeliveryClient) (claimId : String) :=
  clientRequest c "POST" "/b2b/cargo/integration/v2/driver-voiceforwarding"
    (some (.obj (.cons "claim_id" (.str claimId) .nil)))

def getPerformerPosition (c : YandexDeliveryClient) (claimId : String) :=
  clientRequest c "GET"
    ("/b2b/cargo/integration/v2/claims/performer-position?claim_id="
      ++ encodeURIComponent claimId) none

def getPointsEta (c : YandexDeliveryClient) (claimId : String) :=
  clientRequest c "POST" "/b2b/cargo/integration/v2/claims/points-eta"
    (some (.obj (.cons "claim_id" (.str claimId) .nil)))

def getTrackingLinks (c : YandexDeliveryClient) (claimId : String) :=
  clientRequest c "GET"
    ("/b2b/cargo/integration/v2/claims/tracking-links?claim_id="
      ++ encodeURIComponent claimId) none

def getConfirmationCode (c : YandexDeliveryClient) (claimId : String) :=
  clientRequest c "POST" "/b2b/cargo/integration/v2/claims/confirmation_code"
    (some (.obj (.cons "claim_id" (.str claimId) .nil)))

def getProofOfDelivery (c : YandexDeliveryClient) (claimId : String) :=
  clientRequest c "POST" "/b2b/cargo/integration/v2/claims/proof-of-delivery/info"
    (some (.obj (.cons "claim_id" (.str claimId) .nil)))

/-- The body literal is `\x7b claim_id, version, ...params \x7d`. -/
def editClaim (c : YandexDeliveryClient) (claimId : String) (version : Int) (params : Json) :=
  clientRequest c "POST" "/b2b/cargo/integration/v2/claims/edit"
    (some (.obj (objAssignAll
      (.cons "claim_id" (.str claimId) (.cons "version" (.num version) .nil))
      (jsSpreadPairs params))))

def applyChangesRequest (c : YandexDeliveryClient) (claimId : String) (changes : Json) :=
  clientRequest c "POST" "/b2b/cargo/integration/v2/claims/apply-changes/request"
    (some (.obj (.cons "claim_id" (.str claimId) (.cons "changes" changes .nil))))

def applyChangesResult (c : YandexDeliveryClient) (claimId : String) :=
  clientRequest c "POST" "/b2b/cargo/integration/v2/claims/apply-changes/result"
    (some (.obj (.cons "claim_id" (.str claimId) .nil)))

def returnClaim (c : YandexDeliveryClient) (claimId : String) (version : Int)
    (pointId : Option Int) :=
  clientRequest c "POST" "/b2b/cargo/integration/v2/claims/return"
    (some (.obj (.cons "claim_id" (.str claimId) (.cons "version" (.num version)
      (optField "point_id" (pointId.map .num) .nil)))))

def searchClaims (c : YandexDeliveryClient) (params : Json) :=
  clientRequest c "POST" "/b2b/cargo/integration/v2/claims/search" (some params)

def getBulkInfo (c : YandexDeliveryClient) (claimIds : List String) :=
  clientRequest c "POST" "/b2b/cargo/integration/v2/claims/bulk_info"
    (some (.obj (.cons "claims" (.arr (strJsonList claimIds)) .nil)))

def getClaimJournal (c : YandexDeliveryClient) (claimId : String) (cursor : Option String) :=
  clientRequest c "POST" "/b2b/cargo/integration/v2/claims/journal"
    (some (.obj (.cons "claim_id" (.str claimId)
      (optField "cursor" (cursor.map .str) .nil))))

def getDeliveryMethods (c : YandexDeliveryClient) (params : Json) :=
  clientRequest c "POST" "/b2b/cargo/integration/v2/delivery-methods" (some params)

end YandexDeliveryClient

/-- One logical Adapter operation together with its arguments. -/
inductive AdapterOp where
  | calculateOffers (params : Json)
  | createClaim (params : Json)
  | getClaimInfo (claimId : String)
  | acceptClaim (claimId : String) (version : Int)
  | getCancelInfo (claimId : String)
  | cancelClaim (claimId : String) (version : Int) (cancelState : Option String)
  | checkPrice (params : Json)
  | getTariffs (params : Json)
  | getDriverVoiceForwarding (claimId : String)
  | getPerformerPosition (claimId : String)
  | getPointsEta (claimId : String)
  | getTrackingLinks (claimId : String)
  | getConfirmationCode (claimId : String)
  | getProofOfDelivery (claimId : String)
  | editClaim (claimId : String) (version : Int) (params : Json)
  | applyChangesRequest (claimId : String) (changes : Json)
  | applyChangesResult (claimId : String)
  | returnClaim (claimId : String) (version : Int) (pointId : Option Int)
  | searchClaims (params : Json)
  | getBulkInfo (claimIds : List String)
  | getClaimJournal (claimId : String) (cursor : Option String)
  | getDeliveryMethods (params : Json)

/-- Execute one Adapter operation against a given upstream response. -/
def runOp (c : YandexDeliveryClient) (op : AdapterOp) (resp : UpstreamResponse) :
    List OutboundRequest × Except JsFailure Json :=
  match op with
  | .calculateOffers p => c.calculateOffers p resp
  | .createClaim p => c.createClaim p resp
  | .getClaimInfo id => c.getClaimInfo id resp
  | .acceptClaim id ver => c.acceptClaim id ver resp
  | .getCancelInfo id => c.getCancelInfo id resp
  | .cancelClaim id ver cs => c.cancelClaim id ver cs resp
  | .checkPrice p => c.checkPrice p resp
  | .getTariffs p => c.getTariffs p resp
  | .getDriverVoiceForwarding id => c.getDriverVoiceForwarding id resp
  | .getPerformerPosition id => c.getPerformerPosition id resp
  | .getPointsEta id => c.getPointsEta id resp
  | .getTrackingLinks id => c.getTrackingLinks id resp
  | .getConfirmationCode id => c.getConfirmationCode id resp
  | .getProofOfDelivery id => c.getProofOfDelivery id resp
  | .editClaim id ver p => c.editClaim id ver p resp
  | .applyChangesRequest id ch => c.applyChangesRequest id ch resp
  | .applyChangesResult id => c.applyChangesResult id resp
  | .returnClaim id ver pid => c.returnClaim id ver pid resp
  | .searchClaims p => c.searchClaims p resp
  | .getBulkInfo ids => c.getBulkInfo ids resp
  | .getClaimJournal id cur => c.getClaimJournal id cur resp
  | .getDeliveryMethods p => c.getDeliveryMethods p resp

/-! ### Schema validation and dispatch

Modelled from the spec: the Request Dispatcher and schema validation
(`zod` parsing and the MCP SDK's `tools/call` routing are library code
not present in the repository sources).  "Given a tool name and raw
arguments, validates/coerces arguments against the registered schema,
invokes the handler" (§4.3); validation failures produce a structured
rejection naming the failed fields; parsed output contains only the
declared fields (zod object schemas strip unknown keys). -/

/-!
The zod schema constructors used by the tool registrations.
-/
mutual
inductive ZSchema where
  | string : ZSchema
  | number : ZSchema
  | boolean : ZSchema
  | tuple2num : ZSchema
  | enumOf (vals : List String) : ZSchema
  | arrayOf (elem : ZSchema) : ZSchema
  | objOf (fields : ZShape) : ZSchema
inductive ZShape where
  | nil : ZShape
  | cons (name : String) (schema : ZSchema) (required : Bool) (tl : ZShape) : ZShape
end

/-- One validation issue: a path to the offending field and a message. -/
structure ZIssue where
  path : List String
  msg : String
deriving DecidableEq

/-- Validate each array element against the element schema, collecting
issues with index paths and the parsed elements. -/
def zvalidateListWith (f : List String → Json → List ZIssue × Json) (path : List String) :
    Nat → JsonList → List ZIssue × JsonList
  | _, .nil => ([], .nil)
  | i, .cons x tl =>
    let rx := f (path ++ [toString i]) x
    let rtl := zvalidateListWith f path (i + 1) tl
    (rx.1 ++ rtl.1, .cons rx.2 rtl.2)

mutual
/-- Modelled from the spec: zod `safeParse`.  Returns all issues and the
parsed (coerced, unknown-key-stripped) value; the parsed value is
meaningful only when the issue list is empty. -/
def zvalidate : ZSchema → List String → Json → List ZIssue × Json
  | .string, path, v =>
    match v with
    | .str s => ([], .str s)
    | v => ([⟨path, "Expected string"⟩], v)
  | .number, path, v =>
    match v with
    | .num n => ([], .num n)
    | v => ([⟨path, "Expected number"⟩], v)
  | .boolean, path, v =>
    match v with
    | .bool b => ([], .bool b)
    | v => ([⟨path, "Expected boolean"⟩], v)
  | .tuple2num, path, v =>
    match v with
    | .arr (.cons (.num a) (.cons (.num b) .nil)) =>
      ([], .arr (.cons (.num a) (.cons (.num b) .nil)))
    | v => ([⟨path, "Expected a tuple of two numbers"⟩], v)
  | .enumOf vals, path, v =>
    match v with
    | .str s => if s ∈ vals then ([], .str s) else ([⟨path, "Invalid enum value"⟩], .str s)
    | v => ([⟨path, "Invalid enum value"⟩], v)
  | .arrayOf elem, path, v =>
    match v with
    | .arr xs =>
      let r := zvalidateListWith (fun p x => zvalidate elem p x) path 0 xs
      (r.1, .arr r.2)
    | v => ([⟨path, "Expected array"⟩], v)
  | .objOf shape, path, v =>
    match v with
    | .obj fs =>
      let r := zvalidateShape shape path fs
      (r.1, .obj r.2)
    | v => ([⟨path, "Expected object"⟩], v)
/-- Validate an object against a shape, field by field: a missing
required field is an issue, a missing optional field is skipped, and
present fields are validated recursively; keys not in the shape are
dropped. -/
def zvalidateShape : ZShape → List String → JsonFields → List ZIssue × JsonFields
  | .nil, _, _ => ([], .nil)
  | .cons k sch req tl, path, fs =>
    let rest := zvalidateShape tl path fs
    match fs.lookup k with
    | some v =>
      let rv := zvalidate sch (path ++ [k]) v
      (rv.1 ++ rest.1, .cons k rv.2 rest.2)
    | none =>
      if req then (⟨path ++ [k], "Required"⟩ :: rest.1, rest.2)
      else (rest.1, rest.2)
end

/-- Field access with a default, used by handlers on validated input. -/
def jStr (j : Json) (k : String) : String :=
  match jsGet j k with
  | some (.str s) => s
  | _ => ""

def jInt (j : Json) (k : String) : Int :=
  match jsGet j k with
  | some (.num n) => n
  | _ => 0

def jOptStr (j : Json) (k : String) : Option String :=
  match jsGet j k with
  | some (.str s) => some s
  | _ => none

def jOptInt (j : Json) (k : String) : Option Int :=
  match jsGet j k with
  | some (.num n) => some n
  | _ => none

def jVal (j : Json) (k : String) : Json := (jsGet j k).getD .null

def jFields : Json → JsonFields
  | .obj fs => fs
  | _ => .nil

/-- Strings of a JSON string array (elements are strings after
validation). -/
def jsonListStrs : JsonList → List String
  | .nil => []
  | .cons x tl =>
    (match x with
     | .str s => s
     | _ => "") :: jsonListStrs tl

def jStrList (j : Json) (k : String) : List String :=
  match jsGet j k with
  | some (.arr xs) => jsonListStrs xs
  | _ => []

/-- The fields of `j` at the given keys, in key-list order, keeping only
present ones (an object literal whose `undefined` members are dropped by
serialization). -/
def objPick (j : Json) : List String → JsonFields
  | [] => .nil
  | k :: tl =>
    match jsGet j k with
    | some v => .cons k v (objPick j tl)
    | none => objPick j tl

/-- A registered tool: its name, its zod parameter shape, and which
Adapter operation its handler invokes on the validated arguments. -/
structure McpTool where
  name : String
  shape : ZShape
  call : Json → AdapterOp

structure ContentItem where
  type : String
  text : String
deriving DecidableEq

/-- The structured outcome of one dispatched invocation (§4.3, §7).
`configurationError` exists in the error taxonomy but is never produced
per-request. -/
inductive DispatchResult where
  | success (content : List ContentItem)
  | unknownTool
  | invalidArguments (issues : List ZIssue)
  | upstreamError (msg : String)
  | configurationError (msg : String)
deriving DecidableEq

/-- Modelled from the spec: `dispatch(toolName, rawArguments)` (§4.3).
Looks the tool up by exact name, validates the arguments against its
shape, then invokes the handler, which makes exactly one Adapter call
and wraps the raw result as `\x7b content: [\x7b type: "text", text:
JSON.stringify(result, null, 2) \x7d] \x7d`.  The second component
counts Adapter invocations. -/
def dispatch (reg : List McpTool) (name : String) (args : Json)
    (stub : AdapterOp → Except String Json) : DispatchResult × Nat :=
  match reg.find? (fun t => t.name == name) with
  | none => (.unknownTool, 0)
  | some t =>
    match zvalidate (.objOf t.shape) [] args with
    | ([], parsed) =>
      match stub (t.call parsed) with
      | .ok result => (.success [{ type := "text", text := jsonStringify2 result }], 1)
      | .error e => (.upstreamError e, 1)
    | (issues, _) => (.invalidArguments issues, 0)

example : zvalidate (.objOf (.cons "a" .string true .nil)) [] (.obj .nil)
    = ([⟨["a"], "Required"⟩], .obj .nil) := rfl
example : zvalidate (.objOf (.cons "a" .string true .nil)) []
      (.obj (.cons "a" (.str "x") (.cons "junk" (.num 1) .nil)))
    = ([], .obj (.cons "a" (.str "x") .nil)) := rfl

/-! ### The Tool Registry: the 21 `server.tool` registrations of
`index.ts`, in registration order.  The 3-argument `server.tool(name,
shape, handler)` form carries no description string. -/

/-- Build a `ZShape` from a list. -/
def zshape : List (String × ZSchema × Bool) → ZShape
  | [] => .nil
  | (k, s, r) :: tl => .cons k s r (zshape tl)

/-- `\x7b name?, phone?, phone_additional_code? \x7d`. -/
def contactShape : ZSchema :=
  .objOf (zshape [("name", .string, false), ("phone", .string, false),
    ("phone_additional_code", .string, false)])

/-- `requirements` object shape shared by several tools. -/
def requirementsShape : ZSchema :=
  .objOf (zshape [("cargo_type", .string, false),
    ("cargo_options", .arrayOf .string, false),
    ("taxi_class", .string, false), ("door_to_door", .boolean, false)])

/-- `route_points` element for `calculate_offers`. -/
def offerRoutePointShape : ZSchema :=
  .objOf (zshape [("coordinates", .tuple2num, false), ("fullname", .string, false),
    ("shortname", .string, false), ("uri", .string, false), ("country", .string, false),
    ("city", .string, false), ("street", .string, false), ("building", .string, false),
    ("comment", .string, false), ("contact", contactShape, false)])

/-- `route_points` element for `create_claim`. -/
def claimRoutePointShape : ZSchema :=
  .objOf (zshape [("coordinates", .tuple2num, false), ("fullname", .string, false),
    ("shortname", .string, false), ("uri", .string, false), ("country", .string, false),
    ("city", .string, false), ("street", .string, false), ("building", .string, false),
    ("comment", .string, false), ("contact", contactShape, false),
    ("point_id", .number, false),
    ("type", .enumOf ["source", "destination", "return"], false),
    ("visit_order", .number, false), ("skip_confirmation", .boolean, false)])

def calculateOffersTool : McpTool :=
  { name := "calculate_offers"
    shape := zshape [("route_points", .arrayOf offerRoutePointShape, true),
      ("requirements", requirementsShape, false), ("optional_return", .boolean, false),
      ("due", .string, false)]
    call := fun parsed => .calculateOffers
      (.obj (objPick parsed ["route_points", "requirements", "optional_return", "due"])) }

def createClaimTool : McpTool :=
  { name := "create_claim"
    shape := zshape [("route_points", .arrayOf claimRoutePointShape, true),
      ("items", .arrayOf (.objOf (zshape [("title", .string, true),
        ("cost_value", .string, false), ("cost_currency", .string, false),
        ("weight", .number, false), ("quantity", .number, false),
        ("size", .objOf (zshape [("length", .number, true), ("width", .number, true),
          ("height", .number, true)]), false)])), false),
      ("requirements", requirementsShape, false),
      ("emergency_contact", .objOf (zshape [("name", .string, true),
        ("phone", .string, true)]), false),
      ("comment", .string, false), ("due", .string, false)]
    call := fun parsed => .createClaim parsed }

def getClaimInfoTool : McpTool :=
  { name := "get_claim_info"
    shape := zshape [("claim_id", .string, true)]
    call := fun parsed => .getClaimInfo (jStr parsed "claim_id") }

def acceptClaimTool : McpTool :=
  { name := "accept_claim"
    shape := zshape [("claim_id", .string, true), ("version", .number, true)]
    call := fun parsed => .acceptClaim (jStr parsed "claim_id") (jInt parsed "version") }

def cancelClaimTool : McpTool :=
  { name := "cancel_claim"
    shape := zshape [("claim_id", .string, true), ("version", .number, true),
      ("cancel_state", .string, false)]
    call := fun parsed => .cancelClaim (jStr parsed "claim_id") (jInt parsed "version")
      (jOptStr parsed "cancel_state") }

def checkPriceTool : McpTool :=
  { name := "check_price"
    shape := zshape [("route_points", .arrayOf (.objOf (zshape
        [("coordinates", .tuple2num, false), ("fullname", .string, false),
         ("shortname", .string, false), ("uri", .string, false)])), true),
      ("requirements", requirementsShape, false), ("optional_return", .boolean, false)]
    call := fun parsed => .checkPrice parsed }

def getTariffsTool : McpTool :=
  { name := "get_tariffs"
    shape := zshape [("start_point", .tuple2num, false), ("end_point", .tuple2num, false)]
    call := fun parsed => .getTariffs parsed }

def getDriverPhoneTool : McpTool :=
  { name := "get_driver_phone"
    shape := zshape [("claim_id", .string, true)]
    call := fun parsed => .getDriverVoiceForwarding (jStr parsed "claim_id") }

def getPerformerPositionTool : McpTool :=
  { name := "get_performer_position"
    shape := zshape [("claim_id", .string, true)]
    call := fun parsed => .getPerformerPosition (jStr parsed "claim_id") }

def getPointsEtaTool : McpTool :=
  { name := "get_points_eta"
    shape := zshape [("claim_id", .string, true)]
    call := fun parsed => .getPointsEta (jStr parsed "claim_id") }

def getTrackingLinksTool : McpTool :=
  { name := "get_tracking_links"
    shape := zshape [("claim_id", .string, true)]
    call := fun parsed => .getTrackingLinks (jStr parsed "claim_id") }

def getConfirmationCodeTool : McpTool :=
  { name := "get_confirmation_code"
    shape := zshape [("claim_id", .string, true)]
    call := fun parsed => .getConfirmationCode (jStr parsed "claim_id") }

def getProofOfDeliveryTool : McpTool :=
  { name := "get_proof_of_delivery"
    shape := zshape [("claim_id", .string, true)]
    call := fun parsed => .getProofOfDelivery (jStr parsed "claim_id") }

/-- The handler destructures `claim_id` and `version` and forwards the
remaining validated fields as the partial update. -/
def editClaimTool : McpTool :=
  { name := "edit_claim"
    shape := zshape [("claim_id", .string, true), ("version", .number, true),
      ("items", .arrayOf (.objOf (zshape [("title", .string, true),
        ("cost_value", .string, false), ("cost_currency", .string, false),
        ("weight", .number, false), ("quantity", .number, false)])), false),
      ("route_points", .arrayOf (.objOf (zshape [("coordinates", .tuple2num, false),
        ("fullname", .string, false),
        ("contact", .objOf (zshape [("name", .string, false), ("phone", .string, false)]),
          false)])), false),
      ("comment", .string, false)]
    call := fun parsed => .editClaim (jStr parsed "claim_id") (jInt parsed "version")
      (.obj ((jFields parsed).removeKeys ["claim_id", "version"])) }

def applyChangesRequestTool : McpTool :=
  { name := "apply_changes_request"
    shape := zshape [("claim_id", .string, true),
      ("changes", .arrayOf (.objOf (zshape [("point_id", .number, true),
        ("contact", .objOf (zshape [("name", .string, false), ("phone", .string, false)]),
          false),
        ("address", .objOf (zshape [("coordinates", .tuple2num, false),
          ("fullname", .string, false)]), false),
        ("skip_confirmation", .boolean, false)])), true)]
    call := fun parsed => .applyChangesRequest (jStr parsed "claim_id")
      (jVal parsed "changes") }

def applyChangesResultTool : McpTool :=
  { name := "apply_changes_result"
    shape := zshape [("claim_id", .string, true)]
    call := fun parsed => .applyChangesResult (jStr parsed "claim_id") }

def returnClaimTool : McpTool :=
  { name := "return_claim"
    shape := zshape [("claim_id", .string, true), ("version", .number, true),
      ("point_id", .number, false)]
    call := fun parsed => .returnClaim (jStr parsed "claim_id") (jInt parsed "version")
      (jOptInt parsed "point_id") }

def searchClaimsTool : McpTool :=
  { name := "search_claims"
    shape := zshape [("offset", .number, false), ("limit", .number, false),
      ("cursor", .string, false), ("created_from", .string, false),
      ("created_to", .string, false), ("statuses", .arrayOf .string, false),
      ("phone", .string, false)]
    call := fun parsed => .searchClaims parsed }

def getBulkInfoTool : McpTool :=
  { name := "get_bulk_info"
    shape := zshape [("claim_ids", .arrayOf .string, true)]
    call := fun parsed => .getBulkInfo (jStrList parsed "claim_ids") }

def getClaimJournalTool : McpTool :=
  { name := "get_claim_journal"
    shape := zshape [("claim_id", .string, true), ("cursor", .string, false)]
    call := fun parsed => .getClaimJournal (jStr parsed "claim_id")
      (jOptStr parsed "cursor") }

def getDeliveryMethodsTool : McpTool :=
  { name := "get_delivery_methods"
    shape := zshape [("start_point", .tuple2num, false)]
    call := fun parsed => .getDeliveryMethods parsed }

/-- The Tool Registry: every `server.tool` registration of `index.ts`,
in source order. -/
def registry : List McpTool :=
  [calculateOffersTool, createClaimTool, getClaimInfoTool, acceptClaimTool,
   cancelClaimTool, checkPriceTool, getTariffsTool, getDriverPhoneTool,
   getPerformerPositionTool, getPointsEtaTool, getTrackingLinksTool,
   getConfirmationCodeTool, getProofOfDeliveryTool, editClaimTool,
   applyChangesRequestTool, applyChangesResultTool, returnClaimTool,
   searchClaimsTool, getBulkInfoTool, getClaimJournalTool, getDeliveryMethodsTool]

/-- The registered tool names, in registration order. -/
def registryNames : List String := registry.map (fun t => t.name)

example : registryNames.length = 21 := rfl

/-! ### The Session-HTTP front end (`server.ts`) -/

/-- Build `JsonFields` from a list. -/
def jf : List (String × Json) → JsonFields
  | [] => .nil
  | (k, v) :: tl => .cons k v (jf tl)

/-- Build a `JsonList` from a list. -/
def ja : List Json → JsonList := JsonList.ofList

/-- An inbound HTTP request as seen by an Express handler: the verb, the
path under the mount point, an optional client-supplied session
identifier, and the parsed JSON body. -/
structure HttpRequest where
  method : String
  path : String
  sessionId : Option String
  body : Json

structure HttpResponse where
  status : Nat
  body : Json

/-- The handler mounted on `/mcp` (`app.use('/mcp', ...)`,
`server.ts:115-128`).  Despite the comment "Mount MCP server on /mcp
endpoint" and the `mcpServer` instance created just above it, the
handler ignores the request entirely — method, body, and session
identifier alike — and replies 200 with a fixed status object.  The
surrounding `try/catch` is unreachable because `res.json` on this
constant cannot throw; it is not modelled. -/
def mcpHandler (_req : HttpRequest) : HttpResponse :=
  { status := 200
    body := .obj (jf [("status", .str "MCP Server running"),
      ("endpoints", .obj (jf [("tools", .str "/tools"), ("manifest", .str "/manifest")]))]) }

/-- The response of `GET /tools` (`server.ts:131-328`): a fixed,
hardcoded list of 16 tool descriptors. -/
def toolsResponse : Json :=
  .obj (jf [("tools", .arr (ja [
    .obj (jf [("name", .str "calculate_offers"),
      ("description", .str "Calculate available delivery options and prices"),
      ("inputSchema", .obj (jf [("type", .str "object"),
        ("properties", .obj (jf [
          ("route_points", .obj (jf [("type", .str "array"),
            ("description", .str "Route points (minimum 2)")])),
          ("requirements", .obj (jf [("type", .str "object"),
            ("description", .str "Delivery requirements")]))])),
        ("required", .arr (ja [.str "route_points"]))]))]),
    .obj (jf [("name", .str "create_claim"),
      ("description", .str "Create a new delivery claim/order"),
      ("inputSchema", .obj (jf [("type", .str "object"),
        ("properties", .obj (jf [
          ("route_points", .obj (jf [("type", .str "array")])),
          ("items", .obj (jf [("type", .str "array")])),
          ("requirements", .obj (jf [("type", .str "object")]))])),
        ("required", .arr (ja [.str "route_points"]))]))]),
    .obj (jf [("name", .str "get_claim_info"),
      ("description", .str "Get detailed information about a claim"),
      ("inputSchema", .obj (jf [("type", .str "object"),
        ("properties", .obj (jf [
          ("claim_id", .obj (jf [("type", .str "string"),
            ("description", .str "Claim ID")]))])),
        ("required", .arr (ja [.str "claim_id"]))]))]),
    .obj (jf [("name", .str "accept_claim"),
      ("description", .str "Accept a delivery offer"),
      ("inputSchema", .obj (jf [("type", .str "object"),
        ("properties", .obj (jf [
          ("claim_id", .obj (jf [("type", .str "string")])),
          ("version", .obj (jf [("type", .str "number")]))])),
        ("required", .arr (ja [.str "claim_id", .str "version"]))]))]),
    .obj (jf [("name", .str "cancel_claim"),
      ("description", .str "Cancel an existing claim"),
      ("inputSchema", .obj (jf [("type", .str "object"),
        ("properties", .obj (jf [
          ("claim_id", .obj (jf [("type", .str "string")])),
          ("version", .obj (jf [("type", .str "number")]))])),
        ("required", .arr (ja [.str "claim_id", .str "version"]))]))]),
    .obj (jf [("name", .str "check_price"),
      ("description", .str "Check delivery price without creating a claim"),
      ("inputSchema", .obj (jf [("type", .str "object"),
        ("properties", .obj (jf [
          ("route_points", .obj (jf [("type", .str "array")]))])),
        ("required", .arr (ja [.str "route_points"]))]))]),
    .obj (jf [("name", .str "get_tariffs"),
      ("description", .str "Get available tariffs for a location"),
      ("inputSchema", .obj (jf [("type", .str "object"),
        ("properties", .obj (jf [
          ("start_point", .obj (jf [("type", .str "array"),
            ("description", .str "Coordinates [lat, lon]")]))]))]))]),
    .obj (jf [("name", .str "get_driver_phone"),
      ("description", .str "Get courier phone number for calling"),
      ("inputSchema", .obj (jf [("type", .str "object"),
        ("properties", .obj (jf [
          ("claim_id", .obj (jf [("type", .str "string")]))])),
        ("required", .arr (ja [.str "claim_id"]))]))]),
    .obj (jf [("name", .str "get_performer_position"),
      ("description", .str "Get courier current position and movement data"),
      ("inputSchema", .obj (jf [("type", .str "object"),
        ("properties", .obj (jf [
          ("claim_id", .obj (jf [("type", .str "string")]))])),
        ("required", .arr (ja [.str "claim_id"]))]))]),
    .obj (jf [("name", .str "get_points_eta"),
      ("description", .str "Get estimated time of arrival for route points"),
      ("inputSchema", .obj (jf [("type", .str "object"),
        ("properties", .obj (jf [
          ("claim_id", .obj (jf [("type", .str "string")]))])),
        ("required", .arr (ja [.str "claim_id"]))]))]),
    .obj (jf [("name", .str "get_tracking_links"),
      ("description", .str "Get tracking links for courier tracking"),
      ("inputSchema", .obj (jf [("type", .str "object"),
        ("properties", .obj (jf [
          ("claim_id", .obj (jf [("type", .str "string")]))])),
        ("required", .arr (ja [.str "claim_id"]))]))]),
    .obj (jf [("name", .str "get_confirmation_code"),
      ("description", .str "Get confirmation code for current point"),
      ("inputSchema", .obj (jf [("type", .str "object"),
        ("properties", .obj (jf [
          ("claim_id", .obj (jf [("type", .str "string")]))])),
        ("required", .arr (ja [.str "claim_id"]))]))]),
    .obj (jf [("name", .str "get_proof_of_delivery"),
      ("description", .str "Get delivery confirmation data"),
      ("inputSchema", .obj (jf [("type", .str "object"),
        ("properties", .obj (jf [
          ("claim_id", .obj (jf [("type", .str "string")]))])),
        ("required", .arr (ja [.str "claim_id"]))]))]),
    .obj (jf [("name", .str "edit_claim"),
      ("description", .str "Edit claim parameters before acceptance"),
      ("inputSchema", .obj (jf [("type", .str "object"),
        ("properties", .obj (jf [
          ("claim_id", .obj (jf [("type", .str "string")])),
          ("version", .obj (jf [("type", .str "number")]))])),
        ("required", .arr (ja [.str "claim_id", .str "version"]))]))]),
    .obj (jf [("name", .str "search_claims"),
      ("description", .str "Search for claims with filters"),
      ("inputSchema", .obj (jf [("type", .str "object"),
        ("properties", .obj (jf [
          ("limit", .obj (jf [("type", .str "number")])),
          ("statuses", .obj (jf [("type", .str "array")])),
          ("phone", .obj (jf [("type", .str "string")]))]))]))]),
    .obj (jf [("name", .str "get_claim_journal"),
      ("description", .str "Get claim history/changelog"),
      ("inputSchema", .obj (jf [("type", .str "object"),
        ("properties", .obj (jf [
          ("claim_id", .obj (jf [("type", .str "string")]))])),
        ("required", .arr (ja [.str "claim_id"]))]))])]))])

/-- The names listed by `GET /tools`, extracted from the response. -/
def httpToolNames : List String :=
  (match jsGet toolsResponse "tools" with
   | some (.arr xs) => xs.toList
   | _ => []).filterMap (fun t =>
    match jsGet t "name" with
    | some (.str s) => some s
    | _ => none)

example : httpToolNames.length = 16 := rfl

/-! ### Startup credential check (`index.ts:16-26`) -/

/-- Outcome of evaluating the module prologue once at process start. -/
inductive StartupResult where
  | exits (code : Nat) : StartupResult
  | started (apiKey : String) : StartupResult
deriving DecidableEq

/-- `process.env.YANDEX_DELIVERY_API_KEY or ""`, then exit(1) unless the
key is non-empty or `test-server.js` appears in `process.argv`. -/
def startupCheck (argv : List String) (envKey : Option String) : StartupResult :=
  let apiKey := envKey.getD ""
  if !(argv.contains "test-server.js") && apiKey == "" then .exits 1
  else .started apiKey

/-- The serving capability produced by startup: `none` when the process
exited before any request could be served, otherwise the Adapter client
constructed from the credential. -/
def boot (argv : List String) (envKey : Option String) : Option YandexDeliveryClient :=
  match startupCheck argv envKey with
  | .exits _ => none
  | .started key => some (mkYandexDeliveryClient key)

/-! ### Helper lemmas for the claim theorems -/

/-- With pairwise-distinct registered names, lookup by a registered
tool's name finds that tool. -/
theorem find_by_name : ∀ (l : List McpTool), (l.map (fun t => t.name)).Nodup →
    ∀ t ∈ l, l.find? (fun u => u.name == t.name) = some t := by
  intro l
  induction l with
  | nil => intro _ t ht; simp at ht
  | cons hd tl ih =>
    intro hnd t ht
    simp only [List.map_cons, List.nodup_cons] at hnd
    rcases List.mem_cons.mp ht with rfl | htl
    · simp [List.find?]
    · have hne : hd.name ≠ t.name := by
        intro heq
        exact hnd.1 (heq ▸ List.mem_map_of_mem (fun u => u.name) htl)
      rw [List.find?_cons_of_neg _ (by simp [hne])]
      exact ih hnd.2 t htl

theorem registry_names_nodup : (registry.map (fun t => t.name)).Nodup := by decide

/-- The object case of validation, unfolded. -/
theorem zvalidate_obj (shape : ZShape) (path : List String) (fs : JsonFields) :
    zvalidate (.objOf shape) path (.obj fs)
      = ((zvalidateShape shape path fs).1, .obj (zvalidateShape shape path fs).2) := by
  rw [zvalidate.eq_def]

/-- Shape validation unfolded at a field present in the input. -/
theorem zvalidateShape_cons_some (k : String) (sch : ZSchema) (req : Bool) (tl : ZShape)
    (path : List String) (fs : JsonFields) (v : Json) (h : fs.lookup k = some v) :
    zvalidateShape (.cons k sch req tl) path fs
      = ((zvalidate sch (path ++ [k]) v).1 ++ (zvalidateShape tl path fs).1,
         .cons k (zvalidate sch (path ++ [k]) v).2 (zvalidateShape tl path fs).2) := by
  rw [zvalidateShape.eq_def]
  show (match fs.lookup k with
        | some v =>
          ((zvalidate sch (path ++ [k]) v).1 ++ (zvalidateShape tl path fs).1,
           JsonFields.cons k (zvalidate sch (path ++ [k]) v).2 (zvalidateShape tl path fs).2)
        | none =>
          if req then (⟨path ++ [k], "Required"⟩ :: (zvalidateShape tl path fs).1,
            (zvalidateShape tl path fs).2)
          else ((zvalidateShape tl path fs).1, (zvalidateShape tl path fs).2)) = _
  rw [h]

/-- Shape validation unfolded at a field absent from the input. -/
theorem zvalidateShape_cons_none (k : String) (sch : ZSchema) (req : Bool) (tl : ZShape)
    (path : List String) (fs : JsonFields) (h : fs.lookup k = none) :
    zvalidateShape (.cons k sch req tl) path fs
      = if req then (⟨path ++ [k], "Required"⟩ :: (zvalidateShape tl path fs).1,
          (zvalidateShape tl path fs).2)
        else ((zvalidateShape tl path fs).1, (zvalidateShape tl path fs).2) := by
  rw [zvalidateShape.eq_def]
  show (match fs.lookup k with
        | some v =>
          ((zvalidate sch (path ++ [k]) v).1 ++ (zvalidateShape tl path fs).1,
           JsonFields.cons k (zvalidate sch (path ++ [k]) v).2 (zvalidateShape tl path fs).2)
        | none =>
          if req then (⟨path ++ [k], "Required"⟩ :: (zvalidateShape tl path fs).1,
            (zvalidateShape tl path fs).2)
          else ((zvalidateShape tl path fs).1, (zvalidateShape tl path fs).2)) = _
  rw [h]

/-- Whether a shape declares the field required. -/
def requiredIn : ZShape → String → Bool
  | .nil, _ => false
  | .cons k _ req tl, f => (k == f && req) || requiredIn tl f

/-- A declared-required field missing from the input always contributes
a `Required` issue at its path. -/
theorem zshape_missing_required : ∀ (shape : ZShape) (f : String) (path : List String)
    (fs : JsonFields), requiredIn shape f = true → fs.lookup f = none →
    ZIssue.mk (path ++ [f]) "Required" ∈ (zvalidateShape shape path fs).1
  | .nil, f, path, fs => by
    intro hreq _
    simp [requiredIn] at hreq
  | .cons k sch req tl, f, path, fs => by
    intro hreq hlook
    simp only [requiredIn, Bool.or_eq_true, Bool.and_eq_true, beq_iff_eq] at hreq
    rcases hreq with ⟨rfl, rfl⟩ | hreq
    · rw [zvalidateShape_cons_none k sch true tl path fs hlook]
      simp
    · have ihm := zshape_missing_required tl f path fs hreq hlook
      cases hik : fs.lookup k with
      | some v =>
        rw [zvalidateShape_cons_some k sch req tl path fs v hik]
        simp [ihm]
      | none =>
        rw [zvalidateShape_cons_none k sch req tl path fs hik]
        cases req with
        | true => simp [ihm]
        | false => simpa using ihm

theorem dispatch_missing_required (t : McpTool) (ht : t ∈ registry) (f : String)
    (hreq : requiredIn t.shape f = true) (pairs : JsonFields)
    (hlook : pairs.lookup f = none) (stub : AdapterOp → Except String Json) :
    ∃ issues, dispatch registry t.name (.obj pairs) stub = (.invalidArguments issues, 0) ∧
      ZIssue.mk [f] "Required" ∈ issues := by
  have hfind := find_by_name registry registry_names_nodup t ht
  have hmem := zshape_missing_required t.shape f [] pairs hreq hlook
  rcases hts : (zvalidateShape t.shape [] pairs).1 with _ | ⟨i, is⟩
  · rw [hts] at hmem; simp at hmem
  · rw [hts] at hmem
    refine ⟨i :: is, ?_, by simpa using hmem⟩
    rw [dispatch, hfind]
    show (match zvalidate (ZSchema.objOf t.shape) [] (Json.obj pairs) with
          | ([], parsed) =>
            (match stub (t.call parsed) with
             | .ok result =>
               (DispatchResult.success [{ type := "text", text := jsonStringify2 result }], 1)
             | .error e => (DispatchResult.upstreamError e, 1))
          | (issues, _) => (DispatchResult.invalidArguments issues, 0))
        = (DispatchResult.invalidArguments (i :: is), 0)
    rw [zvalidate_obj, hts]

/-! ### Claim theorems -/

/-- The JSON-RPC request of the C1 scenario:
`method "tools/call", params.name "nonexistent_tool", id 7`. -/
def c1Request : HttpRequest :=
  { method := "POST"
    path := "/"
    sessionId := none
    body := .obj (jf [("method", .str "tools/call"),
      ("params", .obj (jf [("name", .str "nonexistent_tool"), ("arguments", .obj .nil)])),
      ("id", .num 7)]) }

/-- C1: the code violates the claim.  The `/mcp` handler never
interprets the body as a JSON-RPC envelope: on the scenario request it
replies 200 with the fixed status object, whose body has no `error`, no
`id`, and no `jsonrpc` member — not the claimed
`jsonrpc 2.0 / error.code -32601 / id 7` envelope. -/
theorem c1_mcp_handler_is_static_stub :
    mcpHandler c1Request
      = { status := 200
          body := .obj (jf [("status", .str "MCP Server running"),
            ("endpoints", .obj (jf [("tools", .str "/tools"),
              ("manifest", .str "/manifest")]))]) }
    ∧ jsGet (mcpHandler c1Request).body "error" = none
    ∧ jsGet (mcpHandler c1Request).body "id" = none
    ∧ jsGet (mcpHandler c1Request).body "jsonrpc" = none :=
  ⟨rfl, rfl, rfl, rfl⟩

/-- C7: the code violates the claim.  The `/mcp` handler is a constant
function of the request: no transport/session object is ever created or
keyed by a session token, and any two requests — whatever their session
identifiers, methods or bodies — receive the identical response. -/
theorem c7_mcp_handler_sessionless :
    ∀ (r r' : HttpRequest), mcpHandler r = mcpHandler r' :=
  fun _ _ => rfl

/-- C2 counterexample: `return_claim` is registered in the Tool Registry
but absent from the `GET /tools` response, so the tool list does not
enumerate exactly the registered names. -/
theorem c2_counterexample :
    registryNames.contains "return_claim" = true
      ∧ httpToolNames.contains "return_claim" = false
      ∧ registryNames.all (fun n => httpToolNames.contains n) = false := by
  decide

/-- C2 (amended): `GET /tools` returns a fixed, hardcoded list of 16
descriptors.  Every listed name is a registered Registry name, but five
registered tools — `apply_changes_request`, `apply_changes_result`,
`return_claim`, `get_bulk_info`, `get_delivery_methods` — are omitted
from the list. -/
theorem c2_http_tools_subset_of_registry :
    httpToolNames.length = 16
      ∧ registryNames.length = 21
      ∧ httpToolNames.all (fun n => registryNames.contains n) = true
      ∧ (["apply_changes_request", "apply_changes_result", "return_claim",
          "get_bulk_info", "get_delivery_methods"].all
          (fun n => registryNames.contains n && !(httpToolNames.contains n))) = true := by
  decide

/-- The C3 counterexample response: a non-2xx status whose body is not
valid JSON. -/
def c3Resp : UpstreamResponse :=
  { status := 502, statusText := "Bad Gateway", jsonBody := none }

/-- C3 counterexample: on a 502 whose body is not JSON, `request` fails
with the JSON parse error, not with a failure carrying the HTTP status
text as the claim requires for a body with no message. -/
theorem c3_counterexample :
    respOk c3Resp = false
      ∧ handleResponse c3Resp = .error .syntaxError
      ∧ handleResponse c3Resp ≠ .error (.apiError "API Error: Bad Gateway") := by
  refine ⟨rfl, rfl, ?_⟩
  intro h
  rw [show handleResponse c3Resp = Except.error JsFailure.syntaxError from rfl] at h
  simp at h

/-- C3 (amended): provided the upstream body parses as JSON, a 2xx
status returns the parsed body, and a non-2xx status (with a non-null
body) raises exactly one failure whose message is
`API Error: ` followed by the upstream `message` field when that is
truthy and by the HTTP status text otherwise. -/
theorem c3_non2xx_uniform_failure :
    ∀ (resp : UpstreamResponse) (data : Json), resp.jsonBody = some data →
      (respOk resp = true → handleResponse resp = .ok data)
        ∧ (respOk resp = false → data ≠ .null →
            handleResponse resp
              = .error (.apiError ("API Error: " ++ upstreamMessage data resp.statusText)))
        ∧ (respOk resp = false → data ≠ .null → jsGet data "message" = none →
            handleResponse resp = .error (.apiError ("API Error: " ++ resp.statusText))) := by
  intro resp data hbody
  refine ⟨?_, ?_, ?_⟩
  · intro hok
    simp [handleResponse, hbody, hok]
  · intro hok hnn
    cases data <;> simp [handleResponse, hbody, hok] <;> exact absurd rfl hnn
  · intro hok hnn hmsg
    cases data <;>
      simp [handleResponse, hbody, hok, upstreamMessage, hmsg] <;> exact absurd rfl hnn

/-- Witness response for C3: a 404 whose JSON body carries a message. -/
def c3WitnessResp : UpstreamResponse :=
  { status := 404, statusText := "Not Found"
    jsonBody := some (.obj (.cons "message" (.str "claim not found") .nil)) }

/-- Witness response for C3: a 200 whose JSON body is returned as-is. -/
def c3WitnessOkResp : UpstreamResponse :=
  { status := 200, statusText := "OK"
    jsonBody := some (.obj (.cons "id" (.str "abc123") .nil)) }

theorem c3_non2xx_uniform_failure_witness :
    handleResponse c3WitnessResp = .error (.apiError "API Error: claim not found")
      ∧ handleResponse c3WitnessOkResp = .ok (.obj (.cons "id" (.str "abc123") .nil)) := by
  constructor
  · exact (c3_non2xx_uniform_failure c3WitnessResp _ rfl).2.1 rfl
      (fun h => Json.noConfusion h)
  · exact (c3_non2xx_uniform_failure c3WitnessOkResp _ rfl).1 rfl

/-- C10: the upstream body is parsed before the status is inspected, so
whenever `response.json()` rejects — whatever the status, 2xx or not —
the operation fails with the JSON parse error and never with the
`API Error` failure. -/
theorem c10_json_parsed_before_status :
    ∀ resp : UpstreamResponse, resp.jsonBody = none →
      handleResponse resp = .error .syntaxError
        ∧ ∀ m, handleResponse resp ≠ .error (.apiError m) := by
  intro resp h
  refine ⟨by simp [handleResponse, h], ?_⟩
  intro m
  simp [handleResponse, h]

/-- The C10 witness response: a 500 with an HTML (non-JSON) body. -/
def c10Resp : UpstreamResponse :=
  { status := 500, statusText := "Internal Server Error", jsonBody := none }

theorem c10_json_parsed_before_status_witness :
    handleResponse c10Resp = .error .syntaxError
      ∧ handleResponse c10Resp ≠ .error (.apiError "API Error: Internal Server Error") :=
  ⟨(c10_json_parsed_before_status c10Resp rfl).1,
   (c10_json_parsed_before_status c10Resp rfl).2 "API Error: Internal Server Error"⟩

/-- C4: for every registered tool and every field its schema marks
required, dispatching with that field absent yields `InvalidArguments`
naming the field, and the Adapter is never invoked (the call count is
0). -/
theorem c4_missing_required_rejected :
    ∀ t ∈ registry, ∀ f : String, requiredIn t.shape f = true →
      ∀ pairs : JsonFields, pairs.lookup f = none →
      ∀ stub : AdapterOp → Except String Json,
      ∃ issues, dispatch registry t.name (.obj pairs) stub = (.invalidArguments issues, 0)
        ∧ ZIssue.mk [f] "Required" ∈ issues :=
  fun t ht f hreq pairs hlook stub => dispatch_missing_required t ht f hreq pairs hlook stub

/-- A stub Adapter that always succeeds with `null`. -/
def nullStub : AdapterOp → Except String Json := fun _ => .ok .null

theorem c4_missing_required_rejected_witness :
    ∃ issues, dispatch registry "accept_claim"
        (.obj (.cons "claim_id" (.str "abc123") .nil)) nullStub
        = (.invalidArguments issues, 0)
      ∧ ZIssue.mk ["version"] "Required" ∈ issues :=
  c4_missing_required_rejected acceptClaimTool
    (.tail _ (.tail _ (.tail _ (.head _)))) "version" rfl
    (.cons "claim_id" (.str "abc123") .nil) rfl nullStub

theorem dispatch_valid_success (t : McpTool) (ht : t ∈ registry) (args parsed v : Json)
    (stub : AdapterOp → Except String Json)
    (hval : zvalidate (.objOf t.shape) [] args = ([], parsed))
    (hstub : stub (t.call parsed) = .ok v) :
    dispatch registry t.name args stub
      = (.success [{ type := "text", text := jsonStringify2 v }], 1) := by
  have hfind := find_by_name registry registry_names_nodup t ht
  rw [dispatch, hfind]
  show (match zvalidate (ZSchema.objOf t.shape) [] args with
        | ([], parsed) =>
          (match stub (t.call parsed) with
           | .ok result =>
             (DispatchResult.success [{ type := "text", text := jsonStringify2 result }], 1)
           | .error e => (DispatchResult.upstreamError e, 1))
        | (issues, _) => (DispatchResult.invalidArguments issues, 0))
      = (DispatchResult.success [{ type := "text", text := jsonStringify2 v }], 1)
  rw [hval]
  show (match stub (t.call parsed) with
        | .ok result =>
          (DispatchResult.success [{ type := "text", text := jsonStringify2 result }], 1)
        | .error e => (DispatchResult.upstreamError e, 1))
      = (DispatchResult.success [{ type := "text", text := jsonStringify2 v }], 1)
  rw [hstub]

/-- C5: on any registered tool, when validation succeeds and the Adapter
returns `v`, the `tools/call` success payload is exactly one text
content item holding `JSON.stringify(v, null, 2)`, and re-parsing that
text yields `v` itself — the reshaping is the identity, with no field
filtering. -/
theorem c5_success_payload_is_identity :
    ∀ t ∈ registry, ∀ (args parsed v : Json) (stub : AdapterOp → Except String Json),
      zvalidate (.objOf t.shape) [] args = ([], parsed) →
      stub (t.call parsed) = .ok v →
      dispatch registry t.name args stub
          = (.success [{ type := "text", text := jsonStringify2 v }], 1)
        ∧ jsonParse (jsonStringify2 v) = some v :=
  fun t ht args parsed v stub hval hstub =>
    ⟨dispatch_valid_success t ht args parsed v stub hval hstub, jsonParse_stringify2 v⟩

/-- A stub Adapter that answers every operation with
`\x7b status: "delivered" \x7d`. -/
def deliveredStub : AdapterOp → Except String Json :=
  fun _ => .ok (.obj (.cons "status" (.str "delivered") .nil))

theorem c5_success_payload_is_identity_witness :
    dispatch registry "get_claim_info" (.obj (.cons "claim_id" (.str "abc123") .nil))
        deliveredStub
        = (.success [ContentItem.mk "text"
            (jsonStringify2 (.obj (.cons "status" (.str "delivered") .nil)))], 1)
      ∧ jsonParse (jsonStringify2 (.obj (.cons "status" (.str "delivered") .nil)))
        = some (.obj (.cons "status" (.str "delivered") .nil)) :=
  c5_success_payload_is_identity getClaimInfoTool (.tail _ (.tail _ (.head _)))
    (.obj (.cons "claim_id" (.str "abc123") .nil))
    (.obj (.cons "claim_id" (.str "abc123") .nil))
    (.obj (.cons "status" (.str "delivered") .nil)) deliveredStub rfl rfl

/-- The upstream requests issued by one dispatched invocation when the
Dispatcher's stub is the real Adapter client: none on lookup or
validation failure, the invoked operation's requests otherwise. -/
def dispatchUpstream (reg : List McpTool) (c : YandexDeliveryClient) (name : String)
    (args : Json) (resp : UpstreamResponse) : List OutboundRequest :=
  match reg.find? (fun t => t.name == name) with
  | none => []
  | some t =>
    match zvalidate (.objOf t.shape) [] args with
    | ([], parsed) => (runOp c (t.call parsed) resp).1
    | _ => []

theorem JsonFields.append_assoc : ∀ (a b c : JsonFields),
    (a.append b).append c = a.append (b.append c)
  | .nil, _, _ => rfl
  | .cons k v tl, b, c => by
    simp only [JsonFields.append]
    rw [JsonFields.append_assoc tl b c]

theorem JsonFields.keys_append : ∀ (a b : JsonFields),
    (a.append b).keys = a.keys ++ b.keys
  | .nil, _ => rfl
  | .cons k v tl, b => by
    simp only [JsonFields.append, JsonFields.keys, List.cons_append]
    rw [JsonFields.keys_append tl b]

theorem JsonFields.append_nil : ∀ (a : JsonFields), a.append .nil = a
  | .nil => rfl
  | .cons k v tl => by
    simp only [JsonFields.append]
    rw [JsonFields.append_nil tl]

/-- Assigning a fresh key appends the field. -/
theorem objAssign_notmem : ∀ (props : JsonFields) (k : String) (v : Json),
    k ∉ props.keys → objAssign props k v = props.append (.cons k v .nil)
  | .nil, _, _, _ => rfl
  | .cons k' v' tl, k, v, h => by
    simp only [JsonFields.keys, List.mem_cons, not_or] at h
    simp only [objAssign, JsonFields.append]
    rw [if_neg (by simpa using fun he => h.1 he.symm), objAssign_notmem tl k v h.2]

/-- Spreading fresh, pairwise-distinct keys after existing properties is
plain concatenation. -/
theorem objAssignAll_eq_append : ∀ (rest props : JsonFields),
    (∀ k ∈ rest.keys, k ∉ props.keys) → rest.keys.Nodup →
    objAssignAll props rest = props.append rest
  | .nil, props, _, _ => (JsonFields.append_nil props).symm
  | .cons k v tl, props, hdis, hnd => by
    simp only [JsonFields.keys] at hdis hnd
    rw [List.nodup_cons] at hnd
    simp only [objAssignAll]
    rw [objAssign_notmem props k v (hdis k (by simp))]
    rw [objAssignAll_eq_append tl (props.append (.cons k v .nil)) ?hdis hnd.2]
    · rw [JsonFields.append_assoc]
      rfl
    case hdis =>
      intro k' hk'
      rw [JsonFields.keys_append]
      simp only [JsonFields.keys, List.mem_append, List.mem_singleton, not_or]
      exact ⟨hdis k' (by simp [hk']), fun he => hnd.1 (he ▸ hk')⟩

theorem removeKeys_mem : ∀ (fs : JsonFields) (ks : List String) (k : String),
    k ∈ (fs.removeKeys ks).keys → k ∉ ks ∧ k ∈ fs.keys
  | .nil, ks, k => by simp [JsonFields.removeKeys, JsonFields.keys]
  | .cons k' v tl, ks, k => by
    intro h
    simp only [JsonFields.removeKeys] at h
    by_cases hk' : k' ∈ ks
    · rw [if_pos hk'] at h
      have := removeKeys_mem tl ks k h
      exact ⟨this.1, by simp [JsonFields.keys, this.2]⟩
    · rw [if_neg hk'] at h
      simp only [JsonFields.keys, List.mem_cons] at h
      rcases h with rfl | h
      · exact ⟨hk', by simp [JsonFields.keys]⟩
      · have := removeKeys_mem tl ks k h
        exact ⟨this.1, by simp [JsonFields.keys, this.2]⟩

theorem removeKeys_keys_sublist : ∀ (fs : JsonFields) (ks : List String),
    (fs.removeKeys ks).keys.Sublist fs.keys
  | .nil, ks => by simp [JsonFields.removeKeys, JsonFields.keys]
  | .cons k' v tl, ks => by
    simp only [JsonFields.removeKeys]
    by_cases hk' : k' ∈ ks
    · rw [if_pos hk']
      exact (removeKeys_keys_sublist tl ks).cons k'
    · rw [if_neg hk']
      exact (removeKeys_keys_sublist tl ks).cons₂ k'

/-- The field names a shape declares, in declaration order. -/
def shapeNames : ZShape → List String
  | .nil => []
  | .cons k _ _ tl => k :: shapeNames tl

/-- Validation output contains only declared keys, in declaration
order. -/
theorem zvalidateShape_keys_sublist : ∀ (shape : ZShape) (path : List String)
    (fs : JsonFields), (zvalidateShape shape path fs).2.keys.Sublist (shapeNames shape)
  | .nil, _, _ => by simp [zvalidateShape, JsonFields.keys, shapeNames]
  | .cons k sch req tl, path, fs => by
    cases hik : fs.lookup k with
    | some v =>
      rw [zvalidateShape_cons_some k sch req tl path fs v hik]
      exact (zvalidateShape_keys_sublist tl path fs).cons₂ k
    | none =>
      rw [zvalidateShape_cons_none k sch req tl path fs hik]
      cases req with
      | true =>
        rw [if_pos rfl]
        exact (zvalidateShape_keys_sublist tl path fs).cons k
      | false =>
        rw [if_neg (by simp)]
        exact (zvalidateShape_keys_sublist tl path fs).cons k

/-- C6 (amended): dispatching `edit_claim` on validated arguments issues
exactly one upstream request, whose body is `\x7b claim_id, version \x7d`
merged with the remaining validated update fields — and those remaining
fields can only be `items`, `route_points` and `comment`: the tool's
schema has no `requirements` field, and unknown keys are stripped before
the handler runs, so nothing else is ever forwarded. -/
theorem c6_edit_claim_body_merge :
    ∀ (key : String) (resp : UpstreamResponse) (args : Json) (ps : JsonFields),
      zvalidate (.objOf editClaimTool.shape) [] args = ([], .obj ps) →
      dispatchUpstream registry (mkYandexDeliveryClient key) "edit_claim" args resp
        = [{ method := "POST"
             url := "https://b2b.taxi.yandex.net" ++ "/b2b/cargo/integration/v2/claims/edit"
             headers := [("Content-Type", "application/json"),
               ("Authorization", "Bearer " ++ key), ("Accept", "application/json")]
             body := some (jsonStringify (.obj (JsonFields.cons "claim_id"
               (.str (jStr (.obj ps) "claim_id")) (JsonFields.cons "version"
                 (.num (jInt (.obj ps) "version"))
                 (ps.removeKeys ["claim_id", "version"])))))}]
      ∧ ∀ k ∈ (ps.removeKeys ["claim_id", "version"]).keys,
          k = "items" ∨ k = "route_points" ∨ k = "comment" := by
  intro key resp args ps hval
  have hargs : ∃ fs : JsonFields, args = .obj fs := by
    cases args with
    | obj fs => exact ⟨fs, rfl⟩
    | null => simp [zvalidate] at hval
    | bool b => simp [zvalidate] at hval
    | num n => simp [zvalidate] at hval
    | str s => simp [zvalidate] at hval
    | arr xs => simp [zvalidate] at hval
  obtain ⟨fs, rfl⟩ := hargs
  rw [zvalidate_obj] at hval
  have hps : (zvalidateShape editClaimTool.shape [] fs).2 = ps := by
    have := congrArg Prod.snd hval
    simpa using this
  have hpskeys : ps.keys.Sublist (shapeNames editClaimTool.shape) :=
    hps ▸ zvalidateShape_keys_sublist editClaimTool.shape [] fs
  have hrestmem : ∀ k ∈ (ps.removeKeys ["claim_id", "version"]).keys,
      k ∉ ["claim_id", "version"] ∧ k ∈ ps.keys :=
    fun k hk => removeKeys_mem ps ["claim_id", "version"] k hk
  have hshape : ∀ k ∈ (ps.removeKeys ["claim_id", "version"]).keys,
      k = "items" ∨ k = "route_points" ∨ k = "comment" := by
    intro k hk
    obtain ⟨hnot, hmem⟩ := hrestmem k hk
    have hin : k ∈ shapeNames editClaimTool.shape := hpskeys.subset hmem
    rw [show shapeNames editClaimTool.shape
        = ["claim_id", "version", "items", "route_points", "comment"] from rfl] at hin
    simp only [List.mem_cons, List.not_mem_nil, or_false] at hin
    simp only [List.mem_cons, List.not_mem_nil, or_false, not_or] at hnot
    tauto
  refine ⟨?_, hshape⟩
  have hnd : (ps.removeKeys ["claim_id", "version"]).keys.Nodup :=
    ((removeKeys_keys_sublist ps _).trans hpskeys).nodup (by decide)
  have hassign : objAssignAll
      (JsonFields.cons "claim_id" (.str (jStr (.obj ps) "claim_id"))
        (JsonFields.cons "version" (.num (jInt (.obj ps) "version")) .nil))
      (ps.removeKeys ["claim_id", "version"])
      = JsonFields.cons "claim_id" (.str (jStr (.obj ps) "claim_id"))
          (JsonFields.cons "version" (.num (jInt (.obj ps) "version"))
            (ps.removeKeys ["claim_id", "version"])) := by
    rw [objAssignAll_eq_append _ _ ?hdis hnd]
    · rfl
    case hdis =>
      intro k hk
      have := (hrestmem k hk).1
      simp only [JsonFields.keys, List.mem_cons, List.not_mem_nil, or_false]
      simpa using this
  rw [dispatchUpstream, show registry.find? (fun t => t.name == "edit_claim")
    = some editClaimTool from rfl]
  show (match zvalidate (ZSchema.objOf editClaimTool.shape) [] (Json.obj fs) with
        | ([], parsed) =>
          (runOp (mkYandexDeliveryClient key) (editClaimTool.call parsed) resp).1
        | _ => []) = _
  rw [zvalidate_obj, hps, show (zvalidateShape editClaimTool.shape [] fs).1 = [] from
    by simpa using congrArg Prod.fst hval]
  show (runOp (mkYandexDeliveryClient key)
    (.editClaim (jStr (.obj ps) "claim_id") (jInt (.obj ps) "version")
      (.obj (ps.removeKeys ["claim_id", "version"]))) resp).1 = _
  show [buildRequest (mkYandexDeliveryClient key) "POST"
    "/b2b/cargo/integration/v2/claims/edit"
    (some (.obj (objAssignAll
      (JsonFields.cons "claim_id" (.str (jStr (.obj ps) "claim_id"))
        (JsonFields.cons "version" (.num (jInt (.obj ps) "version")) .nil))
      (ps.removeKeys ["claim_id", "version"]))))] = _
  rw [hassign]
  show [buildRequest (mkYandexDeliveryClient key) "POST"
    "/b2b/cargo/integration/v2/claims/edit" (some (.obj _))] = _
  simp only [buildRequest, mkYandexDeliveryClient]
  rfl

/-- An arbitrary upstream response for exercising request construction. -/
def c6Resp : UpstreamResponse :=
  { status := 200, statusText := "OK", jsonBody := some (.obj .nil) }

/-- The C6 counterexample arguments: a `requirements` update field is
supplied alongside the identifier and version. -/
def c6Args : Json :=
  .obj (jf [("claim_id", .str "abc123"), ("version", .num 2),
    ("requirements", .obj (jf [("taxi_class", .str "express")]))])

/-- C6 counterexample: with `requirements` among the update fields, the
single upstream request's body is the merge of `claim_id` and `version`
with nothing else — `requirements` is not forwarded — so the body
differs from the claimed merge that includes `requirements`. -/
theorem c6_counterexample :
    dispatchUpstream registry (mkYandexDeliveryClient "test-key") "edit_claim" c6Args c6Resp
      = [{ method := "POST"
           url := "https://b2b.taxi.yandex.net" ++ "/b2b/cargo/integration/v2/claims/edit"
           headers := [("Content-Type", "application/json"),
             ("Authorization", "Bearer " ++ "test-key"), ("Accept", "application/json")]
           body := some (jsonStringify (.obj (jf [("claim_id", .str "abc123"),
             ("version", .num 2)])))}]
      ∧ jsonStringify (.obj (jf [("claim_id", .str "abc123"), ("version", .num 2)]))
        ≠ jsonStringify (.obj (jf [("claim_id", .str "abc123"), ("version", .num 2),
            ("requirements", .obj (jf [("taxi_class", .str "express")]))])) := by
  exact ⟨rfl, by decide⟩

theorem c6_edit_claim_body_merge_witness :
    dispatchUpstream registry (mkYandexDeliveryClient "test-key") "edit_claim"
        (.obj (jf [("claim_id", .str "abc123"), ("version", .num 2),
          ("comment", .str "note")])) c6Resp
      = [{ method := "POST"
           url := "https://b2b.taxi.yandex.net" ++ "/b2b/cargo/integration/v2/claims/edit"
           headers := [("Content-Type", "application/json"),
             ("Authorization", "Bearer " ++ "test-key"), ("Accept", "application/json")]
           body := some (jsonStringify (.obj (jf [("claim_id", .str "abc123"),
             ("version", .num 2), ("comment", .str "note")])))}] :=
  (c6_edit_claim_body_merge "test-key" c6Resp
    (.obj (jf [("claim_id", .str "abc123"), ("version", .num 2),
      ("comment", .str "note")]))
    (jf [("claim_id", .str "abc123"), ("version", .num 2), ("comment", .str "note")])
    rfl).1

/-- The `body` argument each Adapter operation hands to `request`
(`none` for the two GET read operations). -/
def opBody : AdapterOp → Option Json
  | .calculateOffers p => some p
  | .createClaim p => some p
  | .getClaimInfo id => some (.obj (.cons "claim_id" (.str id) .nil))
  | .acceptClaim id ver =>
    some (.obj (.cons "claim_id" (.str id) (.cons "version" (.num ver) .nil)))
  | .getCancelInfo id => some (.obj (.cons "claim_id" (.str id) .nil))
  | .cancelClaim id ver cs =>
    some (.obj (.cons "claim_id" (.str id) (.cons "version" (.num ver)
      (optField "cancel_state" (cs.map .str) .nil))))
  | .checkPrice p => some p
  | .getTariffs p => some p
  | .getDriverVoiceForwarding id => some (.obj (.cons "claim_id" (.str id) .nil))
  | .getPerformerPosition _ => none
  | .getPointsEta id => some (.obj (.cons "claim_id" (.str id) .nil))
  | .getTrackingLinks _ => none
  | .getConfirmationCode id => some (.obj (.cons "claim_id" (.str id) .nil))
  | .getProofOfDelivery id => some (.obj (.cons "claim_id" (.str id) .nil))
  | .editClaim id ver p =>
    some (.obj (objAssignAll
      (.cons "claim_id" (.str id) (.cons "version" (.num ver) .nil)) (jsSpreadPairs p)))
  | .applyChangesRequest id ch =>
    some (.obj (.cons "claim_id" (.str id) (.cons "changes" ch .nil)))
  | .applyChangesResult id => some (.obj (.cons "claim_id" (.str id) .nil))
  | .returnClaim id ver pid =>
    some (.obj (.cons "claim_id" (.str id) (.cons "version" (.num ver)
      (optField "point_id" (pid.map .num) .nil))))
  | .searchClaims p => some p
  | .getBulkInfo ids => some (.obj (.cons "claims" (.arr (strJsonList ids)) .nil))
  | .getClaimJournal id cur =>
    some (.obj (.cons "claim_id" (.str id) (optField "cursor" (cur.map .str) .nil)))
  | .getDeliveryMethods p => some p

/-- C8: every Adapter operation issues exactly one outbound request,
always carrying the static bearer credential and the JSON content
headers; a GET request carries no body, and a non-GET request's body is
the JSON-serialization of the operation's parameter object (given that
object truthy, which every actual parameter object is); the two GET
operations place the URI-encoded `claim_id` in the query string. -/
theorem c8_one_request_headers_body :
    ∀ (key : String) (op : AdapterOp) (resp : UpstreamResponse),
      (runOp (mkYandexDeliveryClient key) op resp).1.length = 1
      ∧ (∀ r ∈ (runOp (mkYandexDeliveryClient key) op resp).1,
          r.headers = [("Content-Type", "application/json"),
            ("Authorization", "Bearer " ++ key), ("Accept", "application/json")]
          ∧ (r.method = "GET" → r.body = none)
          ∧ (r.method ≠ "GET" → ∀ b, opBody op = some b → jsTruthy b = true →
              r.body = some (jsonStringify b)))
      ∧ (∀ id : String, runOp (mkYandexDeliveryClient key) (.getPerformerPosition id) resp
          = ([{ method := "GET"
                url := "https://b2b.taxi.yandex.net"
                  ++ ("/b2b/cargo/integration/v2/claims/performer-position?claim_id="
                    ++ encodeURIComponent id)
                headers := [("Content-Type", "application/json"),
                  ("Authorization", "Bearer " ++ key), ("Accept", "application/json")]
                body := none }], handleResponse resp))
      ∧ (∀ id : String, runOp (mkYandexDeliveryClient key) (.getTrackingLinks id) resp
          = ([{ method := "GET"
                url := "https://b2b.taxi.yandex.net"
                  ++ ("/b2b/cargo/integration/v2/claims/tracking-links?claim_id="
                    ++ encodeURIComponent id)
                headers := [("Content-Type", "application/json"),
                  ("Authorization", "Bearer " ++ key), ("Accept", "application/json")]
                body := none }], handleResponse resp)) := by
  intro key op resp
  refine ⟨?_, ?_, fun id => rfl, fun id => rfl⟩
  · cases op <;> rfl
  · intro r hr
    cases op
    case getPerformerPosition id =>
      obtain rfl := List.mem_singleton.mp hr
      exact ⟨rfl, fun _ => rfl, fun hng _ _ _ => absurd rfl hng⟩
    case getTrackingLinks id =>
      obtain rfl := List.mem_singleton.mp hr
      exact ⟨rfl, fun _ => rfl, fun hng _ _ _ => absurd rfl hng⟩
    all_goals
      obtain rfl := List.mem_singleton.mp hr
      refine ⟨rfl, ?_, ?_⟩
      · intro h
        simp [buildRequest] at h
      · intro hng b hb htr
        simp only [opBody, Option.some.injEq] at hb
        subst hb
        simp [buildRequest, htr]

/-- Upstream response fixture for the C8 witness. -/
def c8Resp : UpstreamResponse :=
  { status := 200, statusText := "OK", jsonBody := some (.obj .nil) }

theorem c8_one_request_headers_body_witness :
    (runOp (mkYandexDeliveryClient "secret") (.acceptClaim "abc123" 2) c8Resp).1.length = 1
    ∧ (buildRequest (mkYandexDeliveryClient "secret") "POST"
        "/b2b/cargo/integration/v2/claims/accept"
        (some (.obj (.cons "claim_id" (.str "abc123") (.cons "version" (.num 2) .nil))))).body
      = some (jsonStringify (.obj (.cons "claim_id" (.str "abc123")
          (.cons "version" (.num 2) .nil))))
    ∧ runOp (mkYandexDeliveryClient "secret") (.getPerformerPosition "claim 7") c8Resp
      = ([{ method := "GET"
            url := "https://b2b.taxi.yandex.net"
              ++ ("/b2b/cargo/integration/v2/claims/performer-position?claim_id="
                ++ encodeURIComponent "claim 7")
            headers := [("Content-Type", "application/json"),
              ("Authorization", "Bearer " ++ "secret"), ("Accept", "application/json")]
            body := none }], handleResponse c8Resp) := by
  have h := c8_one_request_headers_body "secret" (.acceptClaim "abc123" 2) c8Resp
  refine ⟨h.1, ?_, (c8_one_request_headers_body "secret" (.acceptClaim "abc123" 2)
    c8Resp).2.2.1 "claim 7"⟩
  exact (h.2.1 _ (List.mem_singleton.mpr rfl)).2.2 (by simp [buildRequest]) _ rfl rfl

/-- C9: with the upstream credential absent (or empty) and no designated
test mode on the command line, the process exits with code 1 before any
serving capability exists; with a non-empty credential it starts and the
Adapter client holds that credential; the `test-server.js` argument
bypasses the check; and no dispatched request ever produces a
`ConfigurationError`. -/
theorem c9_startup_credential_check :
    ∀ (argv : List String) (envKey : Option String),
      ((envKey = none ∨ envKey = some "") → argv.contains "test-server.js" = false →
        startupCheck argv envKey = .exits 1 ∧ boot argv envKey = none)
      ∧ (∀ k, envKey = some k → k ≠ "" →
          startupCheck argv envKey = .started k
            ∧ boot argv envKey = some (mkYandexDeliveryClient k))
      ∧ (argv.contains "test-server.js" = true →
          startupCheck argv envKey = .started (envKey.getD ""))
      ∧ (∀ (reg : List McpTool) (name : String) (args : Json)
          (stub : AdapterOp → Except String Json) (msg : String),
          (dispatch reg name args stub).1 ≠ .configurationError msg) := by
  intro argv envKey
  refine ⟨?_, ?_, ?_, ?_⟩
  · intro hk hargv
    have hse : startupCheck argv envKey = .exits 1 := by
      rcases hk with rfl | rfl <;> (unfold startupCheck; rw [hargv]; rfl)
    exact ⟨hse, by simp [boot, hse]⟩
  · intro k hk hne
    subst hk
    have hse : startupCheck argv (some k) = .started k := by
      simp [startupCheck, hne]
    exact ⟨hse, by simp [boot, hse]⟩
  · intro hargv
    unfold startupCheck
    rw [hargv]
    rfl
  · intro reg name args stub msg
    rw [dispatch]
    cases reg.find? (fun t => t.name == name) with
    | none => simp
    | some t =>
      show (match zvalidate (ZSchema.objOf t.shape) [] args with
            | ([], parsed) =>
              (match stub (t.call parsed) with
               | .ok result =>
                 (DispatchResult.success
                   [{ type := "text", text := jsonStringify2 result }], 1)
               | .error e => (DispatchResult.upstreamError e, 1))
            | (issues, _) => (DispatchResult.invalidArguments issues, 0)).1
          ≠ DispatchResult.configurationError msg
      split
      · split <;> simp
      · simp

theorem c9_startup_credential_check_witness :
    startupCheck ["node", "build/index.js"] none = .exits 1
    ∧ boot ["node", "build/index.js"] none = none
    ∧ startupCheck ["node", "build/index.js"] (some "secret-key") = .started "secret-key"
    ∧ boot ["node", "build/index.js"] (some "secret-key")
      = some (mkYandexDeliveryClient "secret-key")
    ∧ startupCheck ["node", "test-server.js"] none = .started ""
    ∧ (dispatch registry "get_claim_info" (.obj .nil) nullStub).1
      ≠ .configurationError "missing key" := by
  have h1 := c9_startup_credential_check ["node", "build/index.js"] none
  have h2 := c9_startup_credential_check ["node", "build/index.js"] (some "secret-key")
  have h3 := c9_startup_credential_check ["node", "test-server.js"] none
  exact ⟨(h1.1 (Or.inl rfl) rfl).1, (h1.1 (Or.inl rfl) rfl).2,
    (h2.2.1 "secret-key" rfl (by decide)).1, (h2.2.1 "secret-key" rfl (by decide)).2,
    h3.2.2.1 rfl,
    h1.2.2.2 registry "get_claim_info" (.obj .nil) nullStub "missing key"⟩
